import Mathlib

/-!
# CHIP-8 interpreter: machine state, opcode execution and sprite blit

A shallow embedding of `src/src/cpu.h`, `src/src/cpu.cpp`, `src/display.h`,
`src/src/display.cpp` and `src/input.cpp`.

Conventions of the embedding:

* C++ arrays (`registers`, `memory`, `stack`, the bitmap) are total maps from
  `Nat`; only the indices below the declared array size are cells of the
  machine, the others are never part of a real state.
* An access at an index at or beyond the array size is undefined behaviour in
  C++.  The maps keep such a cell apart from the other members, so the
  embedding is faithful for in-bounds accesses only: where the interpreter
  forms an address `index_register + offset` at or beyond `MEMORY_COUNT`, the
  theorems exhibit that address and say nothing of the members the store
  lands on in the object of `cpu.h`.
* `uint8_t` / `uint16_t` values are `Nat`.  Every store of an arithmetic result
  into a fixed-width variable carries the explicit truncation `% 256` or
  `% 65536` (`wrap8` / `wrap16` for results of subtractions, computed in `Int`
  as C++ does after integer promotion).  `CPU.WF` says that the stored values
  fit their declared widths.
* `exit(1)` is the result `none`; a function that cannot call `exit` is total.
* `rand()` is an extra argument of `execute_opcode`.
-/

namespace Chip8

/-! ## Constants (`cpu.h`, `display.h`, `input.h`) -/

abbrev MEMORY_COUNT : Nat := 4096
abbrev STACK_COUNT : Nat := 16
abbrev REGISTER_COUNT : Nat := 16
abbrev FLAG_REGISTER : Nat := REGISTER_COUNT - 1
abbrev FONT_COUNT : Nat := 80
abbrev PROGRAM_BUFFER : Nat := 0x200
abbrev DISPLAY_WIDTH : Nat := 64
abbrev DISPLAY_HEIGHT : Nat := 32
abbrev CHIP8_KEY_COUNT : Nat := 16

/-- The font table `CHIP8_FONT` of `cpu.h`: 16 glyphs of 5 rows each. -/
def CHIP8_FONT : List Nat :=
  [0xF0, 0x90, 0x90, 0x90, 0xF0,
   0x20, 0x60, 0x20, 0x20, 0x70,
   0xF0, 0x10, 0xF0, 0x80, 0xF0,
   0xF0, 0x10, 0xF0, 0x10, 0xF0,
   0x90, 0x90, 0xF0, 0x10, 0x10,
   0xF0, 0x80, 0xF0, 0x10, 0xF0,
   0xF0, 0x80, 0xF0, 0x90, 0xF0,
   0xF0, 0x10, 0x20, 0x40, 0x40,
   0xF0, 0x90, 0xF0, 0x90, 0xF0,
   0xF0, 0x90, 0xF0, 0x10, 0xF0,
   0xF0, 0x90, 0xF0, 0x90, 0x90,
   0xE0, 0x90, 0xE0, 0x90, 0xE0,
   0xF0, 0x80, 0x80, 0x80, 0xF0,
   0xE0, 0x90, 0x90, 0x90, 0xE0,
   0xF0, 0x80, 0xF0, 0x80, 0xF0,
   0xF0, 0x80, 0xF0, 0x80, 0x80]

/-! ## Fixed-width stores -/

/-- Conversion of an `int` result to `uint8_t`. -/
def wrap8 (v : Int) : Nat := (v % 256).toNat

/-- Conversion of an `int` result to `uint16_t`. -/
def wrap16 (v : Int) : Nat := (v % 65536).toNat

/-- Array store `a[i] = v`. -/
def setAt (a : Nat → Nat) (i v : Nat) : Nat → Nat :=
  fun j => if j = i then v else a j

/-- Bitmap store `display[r][c] = v`. -/
def setPixel (g : Nat → Nat → Bool) (r c : Nat) (v : Bool) : Nat → Nat → Bool :=
  fun i j => if i = r ∧ j = c then v else g i j

/-! ## Display (`display.h`, `display.cpp`) -/

/-- The class `Display`: the bitmap `display[DISPLAY_HEIGHT][DISPLAY_WIDTH]`
(row first) and the flag `redraw`. -/
structure Display where
  display : Nat → Nat → Bool
  redraw : Bool

/-- The inner loop `for (int j = 0; j < DISPLAY_WIDTH; j++)` of
`Display::clear_display` on row `i`, `k` iterations starting at `j`. -/
def clear_display_cols (i : Nat) : Nat → Nat → (Nat → Nat → Bool) → (Nat → Nat → Bool)
  | 0, _, display => display
  | k + 1, j, display => clear_display_cols i k (j + 1) (setPixel display i j false)

/-- The outer loop `for (int i = 0; i < DISPLAY_HEIGHT; i++)` of
`Display::clear_display`, `k` iterations starting at `i`. -/
def clear_display_rows : Nat → Nat → (Nat → Nat → Bool) → (Nat → Nat → Bool)
  | 0, _, display => display
  | k + 1, i, display =>
    clear_display_rows k (i + 1) (clear_display_cols i DISPLAY_WIDTH 0 display)

/-- `Display::clear_display`. -/
def Display.clear_display (d : Display) : Display :=
  { display := clear_display_rows DISPLAY_HEIGHT 0 d.display, redraw := true }

/-- The inner loop `for (int j = 0; j < 8; j++)` of `Display::draw_sprite`.
The first argument counts the iterations still to run (`8 - j`); the loop
state is `j`, `current_x`, the bitmap and `flipped_pixel_off`. -/
def draw_sprite_cols (sprite_byte current_y : Nat) :
    Nat → Nat → Nat → (Nat → Nat → Bool) → Bool → (Nat → Nat → Bool) × Bool
  | 0, _, _, display, flipped_pixel_off => (display, flipped_pixel_off)
  | k + 1, j, current_x, display, flipped_pixel_off =>
    if current_x ≥ DISPLAY_WIDTH then (display, flipped_pixel_off)
    else
      let sprite_bit : Bool := ((sprite_byte >>> (7 - j)) &&& 1) == 1
      if sprite_bit then
        if display current_y current_x then
          draw_sprite_cols sprite_byte current_y k (j + 1) ((current_x + 1) % 256)
            (setPixel display current_y current_x false) true
        else
          draw_sprite_cols sprite_byte current_y k (j + 1) ((current_x + 1) % 256)
            (setPixel display current_y current_x true) flipped_pixel_off
      else
        draw_sprite_cols sprite_byte current_y k (j + 1) ((current_x + 1) % 256)
          display flipped_pixel_off

/-- The outer loop `for (int row_idx = 0; row_idx < num_bytes; row_idx++)` of
`Display::draw_sprite`.  The first argument counts the iterations still to run
(`num_bytes - row_idx`). -/
def draw_sprite_rows (x y : Nat) (sprite_data : Nat → Nat) :
    Nat → Nat → (Nat → Nat → Bool) → Bool → (Nat → Nat → Bool) × Bool
  | 0, _, display, flipped_pixel_off => (display, flipped_pixel_off)
  | k + 1, row_idx, display, flipped_pixel_off =>
    let current_y := (y + row_idx) % 256
    let sprite_byte := sprite_data row_idx
    if current_y ≥ DISPLAY_HEIGHT then (display, flipped_pixel_off)
    else
      let r := draw_sprite_cols sprite_byte current_y 8 0 x display flipped_pixel_off
      draw_sprite_rows x y sprite_data k (row_idx + 1) r.1 r.2

/-- `Display::draw_sprite`.  `sprite_data` is the pointer argument, read as
`sprite_data[row_idx]`; the result pairs the display afterwards with the
returned `flipped_pixel_off`. -/
def Display.draw_sprite (d : Display) (x y : Nat) (sprite_data : Nat → Nat) (num_bytes : Nat) :
    Display × Bool :=
  let x := x &&& (DISPLAY_WIDTH - 1)
  let y := y &&& (DISPLAY_HEIGHT - 1)
  let r := draw_sprite_rows x y sprite_data num_bytes 0 d.display false
  ({ display := r.1, redraw := true }, r.2)

/-! ## Input (`input.h`, `input.cpp`) -/

/-- The part of class `Input` the interpreter reads: `key_states` and
`last_pressed_key` (`-1` when no key was pressed in this polling cycle). -/
structure Input where
  key_states : Nat → Bool
  last_pressed_key : Int

/-- `Input::is_pressed`. -/
def Input.is_pressed (inp : Input) (chip8_key_code : Nat) : Bool :=
  if chip8_key_code < CHIP8_KEY_COUNT then inp.key_states chip8_key_code else false

/-- `Input::get_pressed_key`. -/
def Input.get_pressed_key (inp : Input) : Int := inp.last_pressed_key

/-! ## CPU (`cpu.h`, `cpu.cpp`) -/

/-- The data members of class `CPU`. -/
structure CPU where
  registers : Nat → Nat
  program_counter : Nat
  index_register : Nat
  paused : Bool
  paused_register : Nat
  memory : Nat → Nat
  delay_timer : Nat
  sound_timer : Nat
  stack_pointer : Nat
  stack : Nat → Nat

/-- Every stored value fits the width of its C++ type: `uint8_t` registers,
memory cells, timers, `stack_pointer` and `paused_register`; `uint16_t`
`program_counter`, `index_register` and stack entries. -/
def CPU.WF (s : CPU) : Prop :=
  (∀ i, i < REGISTER_COUNT → s.registers i < 256) ∧
  s.program_counter < 65536 ∧
  s.index_register < 65536 ∧
  s.paused_register < 256 ∧
  (∀ a, a < MEMORY_COUNT → s.memory a < 256) ∧
  s.delay_timer < 256 ∧
  s.sound_timer < 256 ∧
  s.stack_pointer < 256 ∧
  (∀ i, i < STACK_COUNT → s.stack i < 65536)

/-- `CPU::clear_memory`: the loop stores 0 in each of the `MEMORY_COUNT` cells. -/
def CPU.clear_memory (s : CPU) : CPU :=
  { s with memory := fun i => if i < MEMORY_COUNT then 0 else s.memory i }

/-- `CPU::clear_stack`: the loop stores 0 in each of the `STACK_COUNT` entries. -/
def CPU.clear_stack (s : CPU) : CPU :=
  { s with stack := fun i => if i < STACK_COUNT then 0 else s.stack i }

/-- `CPU::clear_registers`: the loop stores 0 in each of the `REGISTER_COUNT`
registers. -/
def CPU.clear_registers (s : CPU) : CPU :=
  { s with registers := fun i => if i < REGISTER_COUNT then 0 else s.registers i }

/-- The copy loop of `CPU::load_font`, `k` iterations starting at `i`. -/
def load_font_loop : Nat → Nat → (Nat → Nat) → (Nat → Nat)
  | 0, _, memory => memory
  | k + 1, i, memory => load_font_loop k (i + 1) (setAt memory i (CHIP8_FONT.getD i 0))

/-- `CPU::load_font`. -/
def CPU.load_font (s : CPU) : CPU :=
  { s with memory := load_font_loop FONT_COUNT 0 s.memory }

/-- `CPU::initialize_cpu`. -/
def CPU.initialize_cpu (s : CPU) : CPU :=
  s.clear_registers.clear_stack.clear_memory.load_font

/-- `CPU::CPU`: the constructor assigns the scalar members and calls
`initialize_cpu`.  It does not assign `paused_register`; that indeterminate
value is the argument. -/
def CPU.new (paused_register : Nat) : CPU :=
  CPU.initialize_cpu
    { registers := fun _ => 0,
      program_counter := PROGRAM_BUFFER,
      index_register := 0,
      paused := false,
      paused_register := paused_register,
      memory := fun _ => 0,
      delay_timer := 0,
      sound_timer := 0,
      stack_pointer := 0,
      stack := fun _ => 0 }

/-- `CPU::is_paused`. -/
def CPU.is_paused (s : CPU) : Bool := s.paused

/-- `CPU::unpause`. -/
def CPU.unpause (s : CPU) : CPU := { s with paused := false }

/-- `CPU::decrement_timers`. -/
def CPU.decrement_timers (s : CPU) : CPU :=
  let s1 := if s.sound_timer > 0 then { s with sound_timer := wrap8 ((s.sound_timer : Int) - 1) } else s
  if s1.delay_timer > 0 then { s1 with delay_timer := wrap8 ((s1.delay_timer : Int) - 1) } else s1

/-- `CPU::push_to_stack`: a full stack prints a diagnostic and returns. -/
def CPU.push_to_stack (s : CPU) (value : Nat) : CPU :=
  if s.stack_pointer ≥ STACK_COUNT then s
  else
    { s with stack := setAt s.stack s.stack_pointer value,
             stack_pointer := (s.stack_pointer + 1) % 256 }

/-- `CPU::pop_from_stack`: an empty stack prints a diagnostic and returns 0. -/
def CPU.pop_from_stack (s : CPU) : CPU × Nat :=
  if s.stack_pointer = 0 then (s, 0)
  else
    let sp := wrap8 ((s.stack_pointer : Int) - 1)
    ({ s with stack_pointer := sp }, s.stack sp)

/-- The copy loop of `CPU::load_program`, `k` iterations starting at `i`. -/
def load_program_loop (program : Nat → Nat) : Nat → Nat → (Nat → Nat) → (Nat → Nat)
  | 0, _, memory => memory
  | k + 1, i, memory => load_program_loop program k (i + 1) (setAt memory (PROGRAM_BUFFER + i) (program i))

/-- `CPU::load_program`; `none` is `exit(1)`.  `size` is the `int` argument. -/
def CPU.load_program (s : CPU) (program : Nat → Nat) (size : Int) : Option CPU :=
  if (PROGRAM_BUFFER : Int) + size ≥ (MEMORY_COUNT : Int) then none
  else some { s with memory := load_program_loop program size.toNat 0 s.memory }

/-- `CPU::fetch_opcode`; `none` is `exit(1)`. -/
def CPU.fetch_opcode (s : CPU) : Option (CPU × Nat) :=
  if s.program_counter + 1 ≥ MEMORY_COUNT then none
  else
    let instruction_1 := s.memory s.program_counter
    let instruction_2 := s.memory (s.program_counter + 1)
    some ({ s with program_counter := (s.program_counter + 2) % 65536 },
          ((instruction_1 <<< 8) ||| instruction_2) % 65536)

/-- The loop of opcode FX55, `k` iterations starting at `i`. -/
def store_registers_loop (registers : Nat → Nat) (index_register : Nat) :
    Nat → Nat → (Nat → Nat) → (Nat → Nat)
  | 0, _, memory => memory
  | k + 1, i, memory =>
    store_registers_loop registers index_register k (i + 1)
      (setAt memory (index_register + i) (registers i))

/-- The loop of opcode FX65, `k` iterations starting at `i`. -/
def load_registers_loop (memory : Nat → Nat) (index_register : Nat) :
    Nat → Nat → (Nat → Nat) → (Nat → Nat)
  | 0, _, registers => registers
  | k + 1, i, registers =>
    load_registers_loop memory index_register k (i + 1)
      (setAt registers i (memory (index_register + i)))

/-- `CPU::set_register_after_key_press`. -/
def CPU.set_register_after_key_press (s : CPU) (key_pressed : Nat) : CPU :=
  { s with registers := setAt s.registers s.paused_register key_pressed }

/-- `CPU::execute_opcode`.  The method cannot call `exit`, so it is total; it
returns the CPU and the display afterwards.  `rnd` is the value returned by
`rand()` in the CXNN case.  The `switch` statements are chains of
comparisons in the order of the `case` labels; the missing `break` after
`case 0x00EE` falls into `default: break`. -/
def CPU.execute_opcode (s : CPU) (instruction : Nat) (display : Display) (input : Input)
    (new_functionality : Bool) (rnd : Nat) : CPU × Display :=
  let first := instruction &&& 0xF000
  let x := (instruction &&& 0x0F00) >>> 8
  let y := (instruction &&& 0x00F0) >>> 4
  let n := instruction &&& 0x000F
  let nn := instruction &&& 0x00FF
  let nnn := instruction &&& 0x0FFF
  if first = 0x0000 then
    if nnn = 0x00E0 then (s, display.clear_display)
    else if nnn = 0x00EE then
      let r := s.pop_from_stack
      ({ r.1 with program_counter := r.2 }, display)
    else (s, display)
  else if first = 0x1000 then
    ({ s with program_counter := nnn }, display)
  else if first = 0x2000 then
    let s1 := s.push_to_stack s.program_counter
    ({ s1 with program_counter := nnn }, display)
  else if first = 0x3000 then
    if s.registers x = nn then ({ s with program_counter := (s.program_counter + 2) % 65536 }, display)
    else (s, display)
  else if first = 0x4000 then
    if s.registers x ≠ nn then ({ s with program_counter := (s.program_counter + 2) % 65536 }, display)
    else (s, display)
  else if first = 0x5000 then
    if s.registers x = s.registers y then
      ({ s with program_counter := (s.program_counter + 2) % 65536 }, display)
    else (s, display)
  else if first = 0x6000 then
    ({ s with registers := setAt s.registers x nn }, display)
  else if first = 0x7000 then
    ({ s with registers := setAt s.registers x ((s.registers x + nn) % 256) }, display)
  else if first = 0x8000 then
    if n = 0x0000 then
      ({ s with registers := setAt s.registers x (s.registers y) }, display)
    else if n = 0x0002 then
      ({ s with registers := setAt s.registers x (s.registers x &&& s.registers y) }, display)
    else if n = 0x0003 then
      ({ s with registers := setAt s.registers x (s.registers x ^^^ s.registers y) }, display)
    else if n = 0x0004 then
      let sum := (s.registers x + s.registers y) % 65536
      let r1 := setAt s.registers x (sum % 256)
      let r2 := setAt r1 FLAG_REGISTER 0
      let r3 := if sum > 255 then setAt r2 FLAG_REGISTER 1 else r2
      ({ s with registers := r3 }, display)
    else if n = 0x0005 then
      let r1 := setAt s.registers FLAG_REGISTER 0
      let r2 := if r1 x > r1 y then setAt r1 FLAG_REGISTER 1 else r1
      let r3 := setAt r2 x (wrap8 ((r2 x : Int) - (r2 y : Int)))
      ({ s with registers := r3 }, display)
    else if n = 0x0007 then
      let r1 := setAt s.registers FLAG_REGISTER 0
      let r2 := if r1 x > r1 y then setAt r1 FLAG_REGISTER 1 else r1
      let r3 := setAt r2 x (wrap8 ((r2 y : Int) - (r2 x : Int)))
      ({ s with registers := r3 }, display)
    else if n = 0x0006 then
      let r0 := if new_functionality then setAt s.registers x (s.registers y) else s.registers
      let r1 := setAt r0 FLAG_REGISTER 0
      let r2 := if (r1 x &&& 0x01) ≠ 0 then setAt r1 FLAG_REGISTER 1 else r1
      let r3 := setAt r2 x ((r2 x >>> 1) % 256)
      ({ s with registers := r3 }, display)
    else if n = 0x000E then
      let r0 := if new_functionality then setAt s.registers x (s.registers y) else s.registers
      let r1 := setAt r0 FLAG_REGISTER 0
      let r2 := if (r1 x &&& 0x80) ≠ 0 then setAt r1 FLAG_REGISTER 1 else r1
      let r3 := setAt r2 x ((r2 x <<< 1) % 256)
      ({ s with registers := r3 }, display)
    else (s, display)
  else if first = 0x9000 then
    if s.registers x ≠ s.registers y then
      ({ s with program_counter := (s.program_counter + 2) % 65536 }, display)
    else (s, display)
  else if first = 0xA000 then
    ({ s with index_register := nnn }, display)
  else if first = 0xB000 then
    if new_functionality then
      ({ s with program_counter := (nnn + s.registers x) % 65536 }, display)
    else
      ({ s with program_counter := (nnn + s.registers 0) % 65536 }, display)
  else if first = 0xC000 then
    ({ s with registers := setAt s.registers x ((rnd &&& nn) % 256) }, display)
  else if first = 0xD000 then
    let r := display.draw_sprite (s.registers x) (s.registers y)
      (fun row_idx => s.memory (s.index_register + row_idx)) n
    ({ s with registers := setAt s.registers FLAG_REGISTER (if r.2 then 1 else 0) }, r.1)
  else if first = 0xE000 then
    if nn = 0x009E then
      if input.is_pressed (s.registers x) then
        ({ s with program_counter := (s.program_counter + 2) % 65536 }, display)
      else (s, display)
    else if nn = 0x00A1 then
      if !input.is_pressed (s.registers x) then
        ({ s with program_counter := (s.program_counter + 2) % 65536 }, display)
      else (s, display)
    else (s, display)
  else if first = 0xF000 then
    if nn = 0x0007 then
      ({ s with registers := setAt s.registers x s.delay_timer }, display)
    else if nn = 0x0015 then
      ({ s with delay_timer := s.registers x }, display)
    else if nn = 0x0018 then
      ({ s with sound_timer := s.registers x }, display)
    else if nn = 0x001E then
      let sum := (s.index_register + s.registers x) % 65536
      let r1 := setAt s.registers FLAG_REGISTER 0
      let r2 := if sum > 0xFFF then setAt r1 FLAG_REGISTER 1 else r1
      ({ s with index_register := sum % 256, registers := r2 }, display)
    else if nn = 0x000A then
      ({ s with paused := true, paused_register := x,
                program_counter := wrap16 ((s.program_counter : Int) - 2) }, display)
    else if nn = 0x0029 then
      ({ s with index_register := (s.registers x * 5) % 65536 }, display)
    else if nn = 0x0033 then
      let value := s.registers x
      let m1 := setAt s.memory s.index_register (value / 100)
      let m2 := setAt m1 (s.index_register + 1) ((value % 100) / 10)
      let m3 := setAt m2 (s.index_register + 2) (value % 10)
      ({ s with memory := m3 }, display)
    else if nn = 0x0055 then
      let m := store_registers_loop s.registers s.index_register (x + 1) 0 s.memory
      let idx := if !new_functionality then (s.index_register + x + 1) % 65536 else s.index_register
      ({ s with memory := m, index_register := idx }, display)
    else if nn = 0x0065 then
      let r := load_registers_loop s.memory s.index_register (x + 1) 0 s.registers
      let idx := if !new_functionality then (s.index_register + x + 1) % 65536 else s.index_register
      ({ s with registers := r, index_register := idx }, display)
    else (s, display)
  else (s, display)

/-- `CPU::emulate_cycle`; `none` is the `exit(1)` of `fetch_opcode`.  The
opcode CXNN draws `rnd` from `rand()`. -/
def CPU.emulate_cycle (s : CPU) (display : Display) (input : Input) (rnd : Nat) :
    Option (CPU × Display) :=
  if s.paused then some (s, display)
  else
    match s.fetch_opcode with
    | none => none
    | some (s1, instruction) => some (s1.execute_opcode instruction display input false rnd)

/-- Assembly of an instruction word from its four nibbles. -/
def opcode (a x y n : Nat) : Nat := a * 4096 + x * 256 + y * 16 + n

/-- Successive calls of `emulate_cycle`, as made by the emulation loop of
`main.cpp`: `n` cycles, the cycle with `k` cycles still to follow reading
input `inputs k` and random value `rnds k`. -/
def emulate_cycles (inputs : Nat → Input) (rnds : Nat → Nat) :
    Nat → CPU × Display → Option (CPU × Display)
  | 0, r => some r
  | n + 1, r =>
    match r.1.emulate_cycle r.2 (inputs n) (rnds n) with
    | none => none
    | some r1 => emulate_cycles inputs rnds n r1

/-! ## Concrete machines used as test inputs -/

/-- A byte array given by its list of bytes. -/
def bytes (l : List Nat) : Nat → Nat := fun i => l.getD i 0

/-- The display as `Display::Display` leaves it. -/
def blank_display : Display := { display := fun _ _ => false, redraw := true }

/-- The input state with no key down and no key pressed in this cycle. -/
def no_keys : Input := { key_states := fun _ => false, last_pressed_key := -1 }

/-- A fresh machine whose registers are then set to the listed values. -/
def machine_with_registers (l : List Nat) : CPU :=
  { CPU.new 0 with registers := bytes l }

/-- A fresh machine after `6003` and `6F05`: V0 = 3, VF = 5. -/
def borrow_machine : CPU :=
  (((CPU.new 0).execute_opcode 0x6003 blank_display no_keys false 0).1.execute_opcode
    0x6F05 blank_display no_keys false 0).1

/-- A fresh machine loaded with the two-byte program `2200`, a call of its own
address. -/
def recursive_call_machine : Option CPU := (CPU.new 0).load_program (bytes [0x22, 0x00]) 2

/-- Sixteen cycles of `recursive_call_machine`. -/
def full_stack_run : Option (CPU × Display) :=
  match recursive_call_machine with
  | none => none
  | some s0 => emulate_cycles (fun _ => no_keys) (fun _ => 0) 16 (s0, blank_display)

/-- The seventeenth cycle of `recursive_call_machine`. -/
def overflow_run : Option (CPU × Display) :=
  match full_stack_run with
  | none => none
  | some r => r.1.emulate_cycle r.2 no_keys 0

/-- The program `F00A 6105`: wait for a key into V0, then set V1 to 5. -/
def wait_key_program : Nat → Nat := bytes [0xF0, 0x0A, 0x61, 0x05]

/-- A fresh machine loaded with `wait_key_program` runs one cycle, the main
loop reports key `k` (`set_register_after_key_press` then `unpause`), and one
more cycle runs. -/
def wait_key_run (k : Nat) : Option (CPU × Display) :=
  match (CPU.new 0).load_program wait_key_program 4 with
  | none => none
  | some s0 =>
    match s0.emulate_cycle blank_display no_keys 0 with
    | none => none
    | some r1 => ((r1.1.set_register_after_key_press k).unpause).emulate_cycle r1.2 no_keys 0

/-- A machine paused with its program counter past the end of memory. -/
def paused_machine : CPU := { CPU.new 0 with paused := true, program_counter := 0xFFFF }

/-- A fresh machine after `A300` and `6001`: index_register = 0x300, V0 = 1. -/
def index_add_machine : CPU :=
  (((CPU.new 0).execute_opcode 0xA300 blank_display no_keys false 0).1.execute_opcode
    0x6001 blank_display no_keys false 0).1

/-- A fresh machine whose sound timer is then set to 5; the delay timer is 0. -/
def timer_machine : CPU := { CPU.new 0 with sound_timer := 5 }

/-- A fresh machine whose register `x` is then set to the digit `d`. -/
def digit_machine (p x d : Nat) : CPU :=
  { CPU.new p with registers := setAt (CPU.new p).registers x d }

/-- The program `6107 AFFF F155`: V1 = 7, index_register = 0xFFF, then store
V0 and V1 at index_register. -/
def index_overrun_program : Nat → Nat := bytes [0x61, 0x07, 0xAF, 0xFF, 0xF1, 0x55]

/-- A fresh machine loaded with `index_overrun_program` runs `n` cycles. -/
def index_overrun_run (n : Nat) : Option (CPU × Display) :=
  match (CPU.new 0).load_program index_overrun_program 6 with
  | none => none
  | some s0 => emulate_cycles (fun _ => no_keys) (fun _ => 0) n (s0, blank_display)

/-- The program `64C8 AFFE F455`: V4 = 200, index_register = 0xFFE, then store
V0..V4 at index_register. -/
def stack_overrun_program : Nat → Nat := bytes [0x64, 0xC8, 0xAF, 0xFE, 0xF4, 0x55]

/-- A fresh machine loaded with `stack_overrun_program` runs `n` cycles. -/
def stack_overrun_run (n : Nat) : Option (CPU × Display) :=
  match (CPU.new 0).load_program stack_overrun_program 6 with
  | none => none
  | some s0 => emulate_cycles (fun _ => no_keys) (fun _ => 0) n (s0, blank_display)

/-! ## Basic facts -/

theorem setAt_same (a : Nat → Nat) (i v : Nat) : setAt a i v i = v := by
  simp [setAt]

theorem setAt_other (a : Nat → Nat) (i v j : Nat) (h : j ≠ i) : setAt a i v j = a j := by
  simp [setAt, h]

theorem font_bytes : ∀ i, i < FONT_COUNT → CHIP8_FONT.getD i 0 < 256 := by
  decide

/-- The font loop writes bytes only. -/
theorem load_font_loop_bytes : ∀ (k i : Nat) (m : Nat → Nat), i + k ≤ FONT_COUNT →
    (∀ a, a < MEMORY_COUNT → m a < 256) →
    ∀ a, a < MEMORY_COUNT → load_font_loop k i m a < 256 := by
  intro k
  induction k with
  | zero => intro i m _ hm a ha; exact hm a ha
  | succ k ih =>
    intro i m hik hm a ha
    simp only [load_font_loop]
    apply ih (i + 1) _ (by omega) _ a ha
    intro b hb
    by_cases h : b = i
    · subst h
      rw [setAt_same]
      exact font_bytes b (by omega)
    · rw [setAt_other _ _ _ _ h]
      exact hm b hb

theorem new_WF (p : Nat) (hp : p < 256) : (CPU.new p).WF := by
  refine ⟨?_, ?_, ?_, hp, ?_, ?_, ?_, ?_, ?_⟩
  · intro i _; simp [CPU.new, CPU.initialize_cpu, CPU.clear_registers, CPU.clear_stack,
      CPU.clear_memory, CPU.load_font]
  · show PROGRAM_BUFFER < 65536
    decide
  · simp [CPU.new, CPU.initialize_cpu, CPU.clear_registers, CPU.clear_stack,
      CPU.clear_memory, CPU.load_font]
  · intro a ha
    simp only [CPU.new, CPU.initialize_cpu, CPU.clear_registers, CPU.clear_stack,
      CPU.clear_memory, CPU.load_font]
    apply load_font_loop_bytes FONT_COUNT 0 _ (by decide) _ a ha
    intro b _
    simp
  · simp [CPU.new, CPU.initialize_cpu, CPU.clear_registers, CPU.clear_stack,
      CPU.clear_memory, CPU.load_font]
  · simp [CPU.new, CPU.initialize_cpu, CPU.clear_registers, CPU.clear_stack,
      CPU.clear_memory, CPU.load_font]
  · simp [CPU.new, CPU.initialize_cpu, CPU.clear_registers, CPU.clear_stack,
      CPU.clear_memory, CPU.load_font]
  · intro i _; simp [CPU.new, CPU.initialize_cpu, CPU.clear_registers, CPU.clear_stack,
      CPU.clear_memory, CPU.load_font]

theorem machine_with_registers_WF (l : List Nat) (h : ∀ i, i < REGISTER_COUNT → bytes l i < 256) :
    (machine_with_registers l).WF := by
  obtain ⟨-, h2, h3, h4, h5, h6, h7, h8, h9⟩ := new_WF 0 (by decide)
  exact ⟨h, h2, h3, h4, h5, h6, h7, h8, h9⟩

/-! ## Instruction decoding -/

theorem and_or_right (x y z : Nat) : (x ||| y) &&& z = (x &&& z) ||| (y &&& z) := by
  rw [Nat.and_comm, Nat.and_or_distrib_left, Nat.and_comm z, Nat.and_comm z]

/-- Fields of a word whose top nibble is zero. -/
theorem low_fields : ∀ x < 16, ∀ y < 16, ∀ n < 16,
    (x * 256 + y * 16 + n) &&& 0xF000 = 0 ∧
    ((x * 256 + y * 16 + n) &&& 0x0F00) >>> 8 = x ∧
    ((x * 256 + y * 16 + n) &&& 0x00F0) >>> 4 = y ∧
    (x * 256 + y * 16 + n) &&& 0x000F = n ∧
    (x * 256 + y * 16 + n) &&& 0x00FF = y * 16 + n ∧
    (x * 256 + y * 16 + n) &&& 0x0FFF = x * 256 + y * 16 + n := by
  decide

/-- Fields of a word that has only a top nibble. -/
theorem high_fields : ∀ a < 16,
    (2 ^ 12 * a) &&& 0xF000 = a * 4096 ∧
    (2 ^ 12 * a) &&& 0x0F00 = 0 ∧
    (2 ^ 12 * a) &&& 0x00F0 = 0 ∧
    (2 ^ 12 * a) &&& 0x000F = 0 ∧
    (2 ^ 12 * a) &&& 0x00FF = 0 ∧
    (2 ^ 12 * a) &&& 0x0FFF = 0 := by
  decide

/-- The decoding at the head of `execute_opcode` recovers the nibbles of an
assembled instruction word. -/
theorem opcode_fields (a x y n : Nat) (ha : a < 16) (hx : x < 16) (hy : y < 16) (hn : n < 16) :
    opcode a x y n &&& 0xF000 = a * 4096 ∧
    (opcode a x y n &&& 0x0F00) >>> 8 = x ∧
    (opcode a x y n &&& 0x00F0) >>> 4 = y ∧
    opcode a x y n &&& 0x000F = n ∧
    opcode a x y n &&& 0x00FF = y * 16 + n ∧
    opcode a x y n &&& 0x0FFF = x * 256 + y * 16 + n := by
  have hr : x * 256 + y * 16 + n < 2 ^ 12 := by omega
  have hw : opcode a x y n = 2 ^ 12 * a ||| (x * 256 + y * 16 + n) := by
    rw [← Nat.mul_add_lt_is_or hr a]
    simp only [opcode]
    omega
  obtain ⟨l1, l2, l3, l4, l5, l6⟩ := low_fields x hx y hy n hn
  obtain ⟨h1, h2, h3, h4, h5, h6⟩ := high_fields a ha
  rw [hw]
  simp only [and_or_right, l1, l2, l3, l4, l5, l6, h1, h2, h3, h4, h5, h6,
    Nat.or_zero, Nat.zero_or]
  simp

/-- Decoding of a call instruction `2NNN`. -/
theorem call_fields (nnn : Nat) (h : nnn < 4096) :
    (0x2000 + nnn) &&& 0xF000 = 0x2000 ∧ (0x2000 + nnn) &&& 0x0FFF = nnn := by
  have hf := opcode_fields 2 (nnn / 256) (nnn / 16 % 16) (nnn % 16)
    (by decide) (by omega) (by omega) (by omega)
  have hw : opcode 2 (nnn / 256) (nnn / 16 % 16) (nnn % 16) = 0x2000 + nnn := by
    simp only [opcode]; omega
  rw [hw] at hf
  refine ⟨hf.1, ?_⟩
  rw [hf.2.2.2.2.2]; omega

/-! ## Single instructions -/

/-- The call instruction `2NNN` pushes the program counter and jumps. -/
theorem execute_call (s : CPU) (nnn : Nat) (hn : nnn < 4096)
    (d : Display) (inp : Input) (nf : Bool) (rnd : Nat) :
    s.execute_opcode (0x2000 + nnn) d inp nf rnd
      = ({ s.push_to_stack s.program_counter with program_counter := nnn }, d) := by
  obtain ⟨f1, f2⟩ := call_fields nnn hn
  simp [CPU.execute_opcode, f1, f2]

/-- The return instruction `00EE` pops into the program counter. -/
theorem execute_return (s : CPU) (d : Display) (inp : Input) (nf : Bool) (rnd : Nat) :
    s.execute_opcode 0x00EE d inp nf rnd
      = ({ s.pop_from_stack.1 with program_counter := s.pop_from_stack.2 }, d) := by
  have e1 : 0x00EE &&& 0xF000 = 0 := by decide
  have e2 : 0x00EE &&& 0x0FFF = 0x00EE := by decide
  simp [CPU.execute_opcode, e1, e2]

/-- The big-endian combination made by `fetch_opcode`. -/
theorem fetch_word (hi lo : Nat) (hhi : hi < 256) (hlo : lo < 256) :
    ((hi <<< 8) ||| lo) % 65536 = hi * 256 + lo := by
  have h : 2 ^ 8 * hi + lo = 2 ^ 8 * hi ||| lo := Nat.mul_add_lt_is_or (by omega) hi
  rw [Nat.shiftLeft_eq, Nat.mul_comm hi, ← h]
  omega

/-! ## 8XY5: subtraction -/

/-- C1 (defect): on a fresh machine after `6003` and `6F05` (V0 = 3, VF = 5) the
instruction `80F5` leaves V0 = 2 and VF = 1, whereas the values held before the
instruction give (3 - 5) mod 256 = 254 and, 3 > 5 being false, flag 0: the
flag register is written before it is read as the operand Vy. -/
theorem sub_8XY5_flag_operand_clobbered :
    borrow_machine.registers 0 = 3 ∧ borrow_machine.registers 15 = 5 ∧
    (borrow_machine.execute_opcode (opcode 8 0 15 5) blank_display no_keys false 0).1.registers 0
      = 2 ∧
    (borrow_machine.execute_opcode (opcode 8 0 15 5) blank_display no_keys false 0).1.registers 15
      = 1 ∧
    wrap8 ((borrow_machine.registers 0 : Int) - (borrow_machine.registers 15 : Int)) = 254 ∧
    ¬ (borrow_machine.registers 0 > borrow_machine.registers 15) := by
  decide

/-- When neither selector is the flag register, `8XY5` subtracts the values
held before the instruction modulo 256 and sets the flag to 1 exactly when
Vx > Vy. -/
theorem sub_8XY5_distinct (s : CPU) (x y : Nat) (hx : x < 15) (hy : y < 15)
    (d : Display) (inp : Input) (nf : Bool) (rnd : Nat) :
    ((s.execute_opcode (opcode 8 x y 5) d inp nf rnd).1.registers x : Int)
        = ((s.registers x : Int) - (s.registers y : Int)) % 256 ∧
    (s.execute_opcode (opcode 8 x y 5) d inp nf rnd).1.registers FLAG_REGISTER
        = (if s.registers x > s.registers y then 1 else 0) := by
  obtain ⟨f1, f2, f3, f4, -, -⟩ :=
    opcode_fields 8 x y 5 (by decide) (by omega) (by omega) (by decide)
  have hx2 : x ≠ 15 := by omega
  have hy2 : y ≠ 15 := by omega
  have hx3 : ¬ (15 = x) := by omega
  simp only [CPU.execute_opcode, f1, f2, f3, f4]
  by_cases h : s.registers x > s.registers y
  · simp [h, setAt, hx2, hy2, hx3, wrap8]
    omega
  · simp [h, setAt, hx2, hy2, hx3, wrap8]
    omega

/-! ## 8XY4: addition with carry -/

/-- C2: for every well-formed machine state and all selectors x, y in 0..15,
`8XY4` leaves the flag register at 1 if Vx + Vy (the values before the
instruction) exceeds 255 and at 0 otherwise, and, when x is not 0xF, leaves
registers[x] = (Vx + Vy) mod 256. -/
theorem add_8XY4_carry (s : CPU) (hs : s.WF) (x y : Nat) (hx : x < 16) (hy : y < 16)
    (d : Display) (inp : Input) (nf : Bool) (rnd : Nat) :
    (s.execute_opcode (opcode 8 x y 4) d inp nf rnd).1.registers FLAG_REGISTER
        = (if s.registers x + s.registers y > 255 then 1 else 0) ∧
    (x ≠ FLAG_REGISTER →
      (s.execute_opcode (opcode 8 x y 4) d inp nf rnd).1.registers x
        = (s.registers x + s.registers y) % 256) := by
  obtain ⟨f1, f2, f3, f4, -, -⟩ := opcode_fields 8 x y 4 (by decide) hx hy (by decide)
  have bx := hs.1 x hx
  have b_y := hs.1 y hy
  have hsum : (s.registers x + s.registers y) % 65536 = s.registers x + s.registers y := by
    omega
  simp only [CPU.execute_opcode, f1, f2, f3, f4, hsum]
  constructor
  · by_cases h : s.registers x + s.registers y > 255 <;> simp [h, setAt]
  · intro hne
    have hne2 : x ≠ 15 := hne
    by_cases h : s.registers x + s.registers y > 255 <;> simp [h, setAt, hne2]

/-- C2 at V0 = 0xFF, V1 = 0x02 and instruction `8014`. -/
theorem add_8XY4_carry_witness :
    (machine_with_registers [0xFF, 0x02]).WF ∧
    ((machine_with_registers [0xFF, 0x02]).execute_opcode (opcode 8 0 1 4) blank_display no_keys
        false 0).1.registers FLAG_REGISTER
      = (if (machine_with_registers [0xFF, 0x02]).registers 0
            + (machine_with_registers [0xFF, 0x02]).registers 1 > 255 then 1 else 0) ∧
    (0 ≠ FLAG_REGISTER →
      ((machine_with_registers [0xFF, 0x02]).execute_opcode (opcode 8 0 1 4) blank_display no_keys
          false 0).1.registers 0
        = ((machine_with_registers [0xFF, 0x02]).registers 0
            + (machine_with_registers [0xFF, 0x02]).registers 1) % 256) :=
  ⟨machine_with_registers_WF _ (by decide),
    add_8XY4_carry (machine_with_registers [0xFF, 0x02])
      (machine_with_registers_WF _ (by decide)) 0 1 (by decide) (by decide)
      blank_display no_keys false 0⟩

/-! ## 2NNN and 00EE: the call stack -/

/-- C3: for every machine state with fewer than 16 stack entries and every
address NNN, `2NNN` followed by `00EE` leaves program_counter at the value it
had just before the `2NNN` was executed and stack_pointer at its value before
the call. -/
theorem call_return_roundtrip (s : CPU) (hsp : s.stack_pointer < STACK_COUNT)
    (nnn : Nat) (hn : nnn < 4096)
    (d : Display) (inp : Input) (nf nf2 : Bool) (rnd rnd2 : Nat) :
    (((s.execute_opcode (0x2000 + nnn) d inp nf rnd).1.execute_opcode 0x00EE
        (s.execute_opcode (0x2000 + nnn) d inp nf rnd).2 inp nf2 rnd2).1.program_counter
      = s.program_counter) ∧
    (((s.execute_opcode (0x2000 + nnn) d inp nf rnd).1.execute_opcode 0x00EE
        (s.execute_opcode (0x2000 + nnn) d inp nf rnd).2 inp nf2 rnd2).1.stack_pointer
      = s.stack_pointer) := by
  have h1 : ¬ (s.stack_pointer ≥ STACK_COUNT) := by omega
  have hsp2 : s.stack_pointer < 16 := hsp
  have h2 : (s.stack_pointer + 1) % 256 = s.stack_pointer + 1 := by omega
  have h3 : wrap8 (((s.stack_pointer + 1 : Nat) : Int) - 1) = s.stack_pointer := by
    simp only [wrap8]; omega
  rw [execute_call s nnn hn, execute_return]
  simp only [CPU.push_to_stack, CPU.pop_from_stack, h1, if_false, h2, Nat.succ_ne_zero, h3,
    setAt, if_true]
  exact ⟨trivial, trivial⟩

/-- C3 on a fresh machine (empty stack, program counter 0x200) with `2ABC`. -/
theorem call_return_roundtrip_witness :
    (CPU.new 0).stack_pointer < STACK_COUNT ∧ 0xABC < 4096 ∧
    ((((CPU.new 0).execute_opcode (0x2000 + 0xABC) blank_display no_keys false 0).1.execute_opcode
        0x00EE ((CPU.new 0).execute_opcode (0x2000 + 0xABC) blank_display no_keys false 0).2
        no_keys false 0).1.program_counter
      = (CPU.new 0).program_counter) ∧
    ((((CPU.new 0).execute_opcode (0x2000 + 0xABC) blank_display no_keys false 0).1.execute_opcode
        0x00EE ((CPU.new 0).execute_opcode (0x2000 + 0xABC) blank_display no_keys false 0).2
        no_keys false 0).1.stack_pointer
      = (CPU.new 0).stack_pointer) :=
  ⟨by decide, by decide,
    call_return_roundtrip (CPU.new 0) (by decide) 0xABC (by decide) blank_display no_keys
      false false 0 0⟩

/-- C4 (counterexample): the program `2200` calls its own address; after
sixteen cycles the stack holds 16 entries and the program counter is again on
the `2200`.  The seventeenth cycle executes `2200` on the full stack and does
not fail: it returns a state, with the program counter at 0x200 and the stack
depth still 16. -/
theorem call_full_stack_not_fatal :
    full_stack_run.map
        (fun r => (r.1.stack_pointer, r.1.program_counter, r.1.memory 0x200, r.1.memory 0x201))
      = some (16, 0x200, 0x22, 0x00) ∧
    overflow_run.map (fun r => (r.1.stack_pointer, r.1.program_counter)) = some (16, 0x200) := by
  decide!

/-- C4 (amended): on a stack that already holds 16 entries `2NNN` skips the
push and returns normally with program_counter set to NNN; the stack, the
stack depth and everything else are unchanged. -/
theorem call_full_stack_skips_push (s : CPU) (hfull : STACK_COUNT ≤ s.stack_pointer)
    (nnn : Nat) (hn : nnn < 4096) (d : Display) (inp : Input) (nf : Bool) (rnd : Nat) :
    s.execute_opcode (0x2000 + nnn) d inp nf rnd = ({ s with program_counter := nnn }, d) := by
  rw [execute_call s nnn hn]
  simp [CPU.push_to_stack, hfull]

/-- C4 (amended) on a machine of stack depth 16 with `2300`. -/
theorem call_full_stack_skips_push_witness :
    STACK_COUNT ≤ ({ CPU.new 0 with stack_pointer := 16 } : CPU).stack_pointer ∧ 0x300 < 4096 ∧
    ({ CPU.new 0 with stack_pointer := 16 } : CPU).execute_opcode (0x2000 + 0x300)
        blank_display no_keys false 0
      = ({ ({ CPU.new 0 with stack_pointer := 16 } : CPU) with program_counter := 0x300 },
          blank_display) :=
  ⟨by decide, by decide,
    call_full_stack_skips_push _ (by decide) 0x300 (by decide) blank_display no_keys false 0⟩

/-! ## FX0A: wait for key -/

/-- C5 (defect): a fresh machine loaded with `F00A 6105` pauses in its first
cycle; key 7 is reported and the machine unpaused; the next cycle leaves the
machine paused again with the program counter still 0x200, V0 = 7 and V1 = 0:
the `6105` stored at 0x202 was not executed, the `F00A` at 0x200 was. -/
theorem wait_key_resume_pauses_again :
    (wait_key_run 7).map
        (fun r => (r.1.paused, r.1.program_counter, r.1.registers 0, r.1.registers 1))
      = some (true, 0x200, 7, 0) := by
  decide

/-- Whatever the state, a machine that fetches `FX0A` pauses with the program
counter back on that instruction; after the key is stored and the machine
unpaused, the next cycle fetches the same `FX0A` and pauses again. -/
theorem wait_key_refetch (s : CPU) (hp : s.paused = false)
    (hpc : s.program_counter + 1 < MEMORY_COUNT) (x : Nat) (hx : x < 16)
    (h1 : s.memory s.program_counter = 0xF0 + x) (h2 : s.memory (s.program_counter + 1) = 0x0A)
    (k : Nat) (d : Display) (inp inp2 : Input) (rnd rnd2 : Nat) :
    s.emulate_cycle d inp rnd = some ({ s with paused := true, paused_register := x }, d) ∧
    (({ s with paused := true, paused_register := x } : CPU).set_register_after_key_press k).unpause
      = { s with registers := setAt s.registers x k, paused_register := x } ∧
    ({ s with registers := setAt s.registers x k, paused_register := x } : CPU).emulate_cycle
        d inp2 rnd2
      = some ({ s with registers := setAt s.registers x k, paused_register := x,
                       paused := true }, d) := by
  have hw : ((s.memory s.program_counter <<< 8) ||| s.memory (s.program_counter + 1)) % 65536
      = opcode 15 x 0 10 := by
    rw [h1, h2, fetch_word _ _ (by omega) (by decide)]
    simp only [opcode]; omega
  obtain ⟨f1, f2, -, -, f5, -⟩ := opcode_fields 15 x 0 10 (by decide) hx (by decide) (by decide)
  have hpc2 : ¬ (s.program_counter + 1 ≥ MEMORY_COUNT) := by omega
  have hpc3 : (s.program_counter + 2) % 65536 = s.program_counter + 2 := by
    simp only [MEMORY_COUNT] at hpc; omega
  have hpc4 : wrap16 (((s.program_counter + 2 : Nat) : Int) - 2) = s.program_counter := by
    simp only [MEMORY_COUNT] at hpc
    simp only [wrap16]; omega
  have hstep : ∀ (t : CPU) (i : Input) (r : Nat), t.paused = false →
      t.program_counter = s.program_counter → t.memory = s.memory →
      t.emulate_cycle d i r = some ({ t with paused := true, paused_register := x }, d) := by
    intro t i r tp tpc tm
    simp only [CPU.emulate_cycle, tp, CPU.fetch_opcode, tpc, tm, hpc2, hw, hpc3,
      CPU.execute_opcode, f1, f2, f5, hpc4]
    simp
    cases t
    simp_all
  refine ⟨?_, ?_, ?_⟩
  · have := hstep s inp rnd hp rfl rfl
    simpa using this
  · simp [CPU.set_register_after_key_press, CPU.unpause, hp]
  · have := hstep { s with registers := setAt s.registers x k, paused_register := x }
      inp2 rnd2 hp rfl rfl
    simpa using this

/-! ## The paused cycle -/

/-- C6: for every machine state with paused = true, whatever its program
counter, and every display and input state, `emulate_cycle` does not fail and
returns the machine state and the display unchanged; hence any number of
repeated cycles while paused changes nothing. -/
theorem emulate_cycle_paused_noop (s : CPU) (hp : s.paused = true) (d : Display) :
    (∀ (inp : Input) (rnd : Nat), s.emulate_cycle d inp rnd = some (s, d)) ∧
    (∀ (inputs : Nat → Input) (rnds : Nat → Nat) (n : Nat),
      emulate_cycles inputs rnds n (s, d) = some (s, d)) := by
  have h1 : ∀ (inp : Input) (rnd : Nat), s.emulate_cycle d inp rnd = some (s, d) := by
    intro inp rnd
    simp [CPU.emulate_cycle, hp]
  refine ⟨h1, ?_⟩
  intro inputs rnds n
  induction n with
  | zero => rfl
  | succ n ih => simp only [emulate_cycles, h1]; exact ih

/-- C6 on a paused machine whose program counter is 0xFFFF. -/
theorem emulate_cycle_paused_noop_witness :
    paused_machine.paused = true ∧
    (∀ (inp : Input) (rnd : Nat),
      paused_machine.emulate_cycle blank_display inp rnd = some (paused_machine, blank_display)) ∧
    (∀ (inputs : Nat → Input) (rnds : Nat → Nat) (n : Nat),
      emulate_cycles inputs rnds n (paused_machine, blank_display)
        = some (paused_machine, blank_display)) :=
  ⟨rfl, emulate_cycle_paused_noop paused_machine rfl blank_display⟩


/-! ## The sprite blit -/

theorem setPixel_same (g : Nat → Nat → Bool) (r c : Nat) (v : Bool) : setPixel g r c v r c = v := by
  simp [setPixel]

theorem setPixel_other (g : Nat → Nat → Bool) (r c : Nat) (v : Bool) (i j : Nat)
    (h : ¬ (i = r ∧ j = c)) : setPixel g r c v i j = g i j := by
  simp only [setPixel, h, if_false]

/-- Cells changed by the column loop: those of row `current_y` under a set
sprite bit, up to the right edge. -/
theorem cols_display (sb cy : Nat) : ∀ (k j cx : Nat) (disp : Nat → Nat → Bool) (fl : Bool)
    (r c : Nat), cx ≤ DISPLAY_WIDTH →
    ((draw_sprite_cols sb cy k j cx disp fl).1 r c ≠ disp r c ↔
      (r = cy ∧ cx ≤ c ∧ c < cx + k ∧ c < DISPLAY_WIDTH ∧
        (((sb >>> (7 - (j + (c - cx)))) &&& 1) == 1) = true)) := by
  intro k
  induction k with
  | zero =>
    intro j cx disp fl r c _
    simp only [draw_sprite_cols]
    constructor
    · intro h; exact absurd rfl h
    · rintro ⟨-, h1, h2, -⟩; omega
  | succ k ih =>
    intro j cx disp fl r c hcx
    simp only [draw_sprite_cols]
    by_cases hge : cx ≥ DISPLAY_WIDTH
    · simp only [hge, if_true]
      constructor
      · intro h; exact absurd rfl h
      · rintro ⟨-, h1, -, h3, -⟩; omega
    · simp only [hge, if_false]
      have hlt : cx < 64 := by simp only [DISPLAY_WIDTH] at hge; omega
      have hw : (cx + 1) % 256 = cx + 1 := by omega
      have hcx1 : cx + 1 ≤ DISPLAY_WIDTH := by simp only [DISPLAY_WIDTH]; omega
      rw [hw]
      by_cases hcell : r = cy ∧ c = cx
      · obtain ⟨hr, hc⟩ := hcell
        subst hr; subst hc
        have hnot : ∀ (g : Nat → Nat → Bool) (f : Bool),
            (draw_sprite_cols sb r k (j + 1) (c + 1) g f).1 r c = g r c := by
          intro g f
          by_contra hne
          have := (ih (j + 1) (c + 1) g f r c hcx1).1 hne
          omega
        have hidx : 7 - (j + (c - c)) = 7 - j := by simp
        rw [hidx]
        generalize (((sb >>> (7 - j)) &&& 1) == 1) = b
        cases b
        · simp [hnot]
        · cases hd : disp r c <;> simp [hd, hnot, setPixel_same, hlt]
      · have hpix : ∀ v, setPixel disp cy cx v r c = disp r c := fun v =>
          setPixel_other disp cy cx v r c hcell
        have key : ∀ (g : Nat → Nat → Bool) (f : Bool), g r c = disp r c →
            ((draw_sprite_cols sb cy k (j + 1) (cx + 1) g f).1 r c ≠ disp r c ↔
              (r = cy ∧ cx ≤ c ∧ c < cx + (k + 1) ∧ c < DISPLAY_WIDTH ∧
                (((sb >>> (7 - (j + (c - cx)))) &&& 1) == 1) = true)) := by
          intro g f hg
          rw [← hg, ih (j + 1) (cx + 1) g f r c hcx1]
          constructor
          · rintro ⟨h1, h2, h3, h4, h5⟩
            have e : j + 1 + (c - (cx + 1)) = j + (c - cx) := by omega
            rw [e] at h5
            exact ⟨h1, by omega, by omega, h4, h5⟩
          · rintro ⟨h1, h2, h3, h4, h5⟩
            have hc : c ≠ cx := fun h => hcell ⟨h1, h⟩
            have e : j + 1 + (c - (cx + 1)) = j + (c - cx) := by omega
            rw [← e] at h5
            exact ⟨h1, by omega, by omega, h4, h5⟩
        split
        · split
          · exact key _ _ (hpix false)
          · exact key _ _ (hpix true)
        · exact key _ _ rfl

/-- The flag returned by the column loop. -/
theorem cols_flag (sb cy : Nat) : ∀ (k j cx : Nat) (disp : Nat → Nat → Bool) (fl : Bool),
    cx ≤ DISPLAY_WIDTH →
    ((draw_sprite_cols sb cy k j cx disp fl).2 = true ↔
      (fl = true ∨ ∃ c, cx ≤ c ∧ c < cx + k ∧ c < DISPLAY_WIDTH ∧
        (((sb >>> (7 - (j + (c - cx)))) &&& 1) == 1) = true ∧ disp cy c = true)) := by
  intro k
  induction k with
  | zero =>
    intro j cx disp fl _
    simp only [draw_sprite_cols]
    constructor
    · intro h; exact Or.inl h
    · rintro (h | ⟨c, h1, h2, -⟩)
      · exact h
      · omega
  | succ k ih =>
    intro j cx disp fl hcx
    simp only [draw_sprite_cols]
    by_cases hge : cx ≥ DISPLAY_WIDTH
    · simp only [hge, if_true]
      constructor
      · intro h; exact Or.inl h
      · rintro (h | ⟨c, h1, -, h3, -⟩)
        · exact h
        · omega
    · simp only [hge, if_false]
      have hlt : cx < DISPLAY_WIDTH := by omega
      have hlt2 : cx < 64 := hlt
      have hw : (cx + 1) % 256 = cx + 1 := by omega
      have hcx1 : cx + 1 ≤ DISPLAY_WIDTH := by omega
      rw [hw]
      have hidx : 7 - (j + (cx - cx)) = 7 - j := by simp
      -- cells right of `cx` in a bitmap that differs from `disp` at `(cy, cx)` only
      have shift : ∀ (g : Nat → Nat → Bool), (∀ c, c ≠ cx → g cy c = disp cy c) →
          ((∃ c, cx + 1 ≤ c ∧ c < cx + 1 + k ∧ c < DISPLAY_WIDTH ∧
              (((sb >>> (7 - (j + 1 + (c - (cx + 1))))) &&& 1) == 1) = true ∧ g cy c = true) ↔
            (∃ c, c ≠ cx ∧ cx ≤ c ∧ c < cx + (k + 1) ∧ c < DISPLAY_WIDTH ∧
              (((sb >>> (7 - (j + (c - cx)))) &&& 1) == 1) = true ∧ disp cy c = true)) := by
        intro g hg
        constructor
        · rintro ⟨c, h1, h2, h3, h4, h5⟩
          have e : j + 1 + (c - (cx + 1)) = j + (c - cx) := by omega
          rw [e] at h4
          rw [hg c (by omega)] at h5
          exact ⟨c, by omega, by omega, by omega, h3, h4, h5⟩
        · rintro ⟨c, h0, h1, h2, h3, h4, h5⟩
          have e : j + 1 + (c - (cx + 1)) = j + (c - cx) := by omega
          rw [← e] at h4
          rw [← hg c h0] at h5
          exact ⟨c, by omega, by omega, h3, h4, h5⟩
      have hset : ∀ v c, c ≠ cx → setPixel disp cy cx v cy c = disp cy c := by
        intro v c hc
        exact setPixel_other disp cy cx v cy c (fun h => hc h.2)
      by_cases hb : (((sb >>> (7 - j)) &&& 1) == 1) = true
      · rw [if_pos hb]
        by_cases hd : disp cy cx = true
        · rw [if_pos hd]
          rw [ih (j + 1) (cx + 1) _ true hcx1]
          constructor
          · intro _
            exact Or.inr ⟨cx, Nat.le_refl _, by omega, hlt, by rw [hidx]; exact hb, hd⟩
          · intro _; exact Or.inl rfl
        · rw [if_neg hd]
          rw [ih (j + 1) (cx + 1) _ fl hcx1, shift _ (hset true)]
          constructor
          · rintro (h | ⟨c, -, h⟩)
            · exact Or.inl h
            · exact Or.inr ⟨c, h⟩
          · rintro (h | ⟨c, h1, h2, h3, h4, h5⟩)
            · exact Or.inl h
            · refine Or.inr ⟨c, ?_, h1, h2, h3, h4, h5⟩
              intro hc; subst hc; exact hd h5
      · rw [if_neg hb]
        rw [ih (j + 1) (cx + 1) _ fl hcx1, shift _ (fun _ _ => rfl)]
        constructor
        · rintro (h | ⟨c, -, h⟩)
          · exact Or.inl h
          · exact Or.inr ⟨c, h⟩
        · rintro (h | ⟨c, h1, h2, h3, h4, h5⟩)
          · exact Or.inl h
          · refine Or.inr ⟨c, ?_, h1, h2, h3, h4, h5⟩
            intro hc; subst hc; rw [hidx] at h4; exact hb h4

/-- Cells changed by the row loop. -/
theorem rows_display (x y : Nat) (sp : Nat → Nat) (hx : x < DISPLAY_WIDTH) :
    ∀ (k row_idx : Nat) (disp : Nat → Nat → Bool) (fl : Bool) (r c : Nat),
    y + row_idx ≤ DISPLAY_HEIGHT →
    ((draw_sprite_rows x y sp k row_idx disp fl).1 r c ≠ disp r c ↔
      (y + row_idx ≤ r ∧ r < y + row_idx + k ∧ r < DISPLAY_HEIGHT ∧
        x ≤ c ∧ c < x + 8 ∧ c < DISPLAY_WIDTH ∧
        (((sp (r - y) >>> (7 - (c - x))) &&& 1) == 1) = true)) := by
  intro k
  induction k with
  | zero =>
    intro row_idx disp fl r c _
    simp only [draw_sprite_rows]
    constructor
    · intro h; exact absurd rfl h
    · rintro ⟨h1, h2, -⟩; omega
  | succ k ih =>
    intro row_idx disp fl r c hy
    have hy2 : y + row_idx ≤ 32 := hy
    have hw : (y + row_idx) % 256 = y + row_idx := by omega
    simp only [draw_sprite_rows, hw]
    by_cases hge : y + row_idx ≥ DISPLAY_HEIGHT
    · simp only [hge, if_true]
      constructor
      · intro h; exact absurd rfl h
      · rintro ⟨h1, -, h3, -⟩; omega
    · simp only [hge, if_false]
      have hy1 : y + (row_idx + 1) ≤ DISPLAY_HEIGHT := by omega
      have hrec := ih (row_idx + 1)
        (draw_sprite_cols (sp row_idx) (y + row_idx) 8 0 x disp fl).1
        (draw_sprite_cols (sp row_idx) (y + row_idx) 8 0 x disp fl).2 r c hy1
      have hcol := cols_display (sp row_idx) (y + row_idx) 8 0 x disp fl r c (Nat.le_of_lt hx)
      simp only [Nat.zero_add] at hcol
      by_cases hrow : r = y + row_idx
      · -- the row drawn by this iteration: later iterations leave it alone
        have hsame : (draw_sprite_rows x y sp k (row_idx + 1)
            (draw_sprite_cols (sp row_idx) (y + row_idx) 8 0 x disp fl).1
            (draw_sprite_cols (sp row_idx) (y + row_idx) 8 0 x disp fl).2).1 r c
            = (draw_sprite_cols (sp row_idx) (y + row_idx) 8 0 x disp fl).1 r c := by
          by_contra hne
          have := hrec.1 hne
          omega
        rw [hsame, hcol]
        have e : r - y = row_idx := by omega
        rw [e]
        constructor
        · rintro ⟨-, h2, h3, h4, h5⟩
          exact ⟨by omega, by omega, by omega, h2, h3, h4, h5⟩
        · rintro ⟨-, -, -, h2, h3, h4, h5⟩
          exact ⟨hrow, h2, h3, h4, h5⟩
      · -- another row: this iteration leaves it alone
        have hsame : (draw_sprite_cols (sp row_idx) (y + row_idx) 8 0 x disp fl).1 r c
            = disp r c := by
          by_contra hne
          exact hrow (hcol.1 hne).1
        rw [← hsame, hrec]
        constructor
        · rintro ⟨h1, h2, h3, h4⟩
          exact ⟨by omega, by omega, h3, h4⟩
        · rintro ⟨h1, h2, h3, h4⟩
          exact ⟨by omega, by omega, h3, h4⟩

/-- The flag returned by the row loop. -/
theorem rows_flag (x y : Nat) (sp : Nat → Nat) (hx : x < DISPLAY_WIDTH) :
    ∀ (k row_idx : Nat) (disp : Nat → Nat → Bool) (fl : Bool),
    y + row_idx ≤ DISPLAY_HEIGHT →
    ((draw_sprite_rows x y sp k row_idx disp fl).2 = true ↔
      (fl = true ∨ ∃ r c, y + row_idx ≤ r ∧ r < y + row_idx + k ∧ r < DISPLAY_HEIGHT ∧
        x ≤ c ∧ c < x + 8 ∧ c < DISPLAY_WIDTH ∧
        (((sp (r - y) >>> (7 - (c - x))) &&& 1) == 1) = true ∧ disp r c = true)) := by
  intro k
  induction k with
  | zero =>
    intro row_idx disp fl _
    simp only [draw_sprite_rows]
    constructor
    · intro h; exact Or.inl h
    · rintro (h | ⟨r, c, h1, h2, -⟩)
      · exact h
      · omega
  | succ k ih =>
    intro row_idx disp fl hy
    have hy2 : y + row_idx ≤ 32 := hy
    have hw : (y + row_idx) % 256 = y + row_idx := by omega
    simp only [draw_sprite_rows, hw]
    by_cases hge : y + row_idx ≥ DISPLAY_HEIGHT
    · simp only [hge, if_true]
      constructor
      · intro h; exact Or.inl h
      · rintro (h | ⟨r, c, h1, -, h3, -⟩)
        · exact h
        · omega
    · simp only [hge, if_false]
      have hy1 : y + (row_idx + 1) ≤ DISPLAY_HEIGHT := by omega
      have hfl := cols_flag (sp row_idx) (y + row_idx) 8 0 x disp fl (Nat.le_of_lt hx)
      simp only [Nat.zero_add] at hfl
      have hkeep : ∀ r c, r ≠ y + row_idx →
          (draw_sprite_cols (sp row_idx) (y + row_idx) 8 0 x disp fl).1 r c = disp r c := by
        intro r c hr
        by_contra hne
        exact hr ((cols_display (sp row_idx) (y + row_idx) 8 0 x disp fl r c
          (Nat.le_of_lt hx)).1 hne).1
      rw [ih (row_idx + 1) _ _ hy1, hfl]
      constructor
      · rintro ((h | ⟨c, h1, h2, h3, h4, h5⟩) | ⟨r, c, h1, h2, h3, h4, h5, h6, h7, h8⟩)
        · exact Or.inl h
        · refine Or.inr ⟨y + row_idx, c, Nat.le_refl _, by omega, by omega, h1, h2, h3, ?_, h5⟩
          rw [Nat.add_sub_cancel_left]; exact h4
        · rw [hkeep r c (by omega)] at h8
          exact Or.inr ⟨r, c, by omega, by omega, h3, h4, h5, h6, h7, h8⟩
      · rintro (h | ⟨r, c, h1, h2, h3, h4, h5, h6, h7, h8⟩)
        · exact Or.inl (Or.inl h)
        · by_cases hr : r = y + row_idx
          · subst hr
            rw [Nat.add_sub_cancel_left] at h7
            exact Or.inl (Or.inr ⟨c, h4, h5, h6, h7, h8⟩)
          · rw [← hkeep r c hr] at h8
            exact Or.inr ⟨r, c, by omega, by omega, h3, h4, h5, h6, h7, h8⟩

/-- The bit test of `draw_sprite` is `Nat.testBit`. -/
theorem sprite_bit_eq_testBit (m i : Nat) : (((m >>> i) &&& 1) == 1) = m.testBit i := by
  simp only [Nat.testBit, Nat.and_one_is_mod, Nat.one_and_eq_mod_two]
  rcases Nat.mod_two_eq_zero_or_one (m >>> i) with h | h <;> simp [h]

theorem origin_x_mask (x : Nat) : x &&& (DISPLAY_WIDTH - 1) = x % 64 :=
  Nat.and_pow_two_sub_one_eq_mod x 6

theorem origin_y_mask (y : Nat) : y &&& (DISPLAY_HEIGHT - 1) = y % 32 :=
  Nat.and_pow_two_sub_one_eq_mod y 5

/-- The cells changed by `draw_sprite`. -/
theorem draw_sprite_changed (d : Display) (x y : Nat) (sp : Nat → Nat) (n r c : Nat) :
    (d.draw_sprite x y sp n).1.display r c ≠ d.display r c ↔
      (y % 32 ≤ r ∧ r < y % 32 + n ∧ r < DISPLAY_HEIGHT ∧
        x % 64 ≤ c ∧ c < x % 64 + 8 ∧ c < DISPLAY_WIDTH ∧
        (sp (r - y % 32)).testBit (7 - (c - x % 64)) = true) := by
  have hx : x % 64 < DISPLAY_WIDTH := Nat.mod_lt _ (by decide)
  have hy : y % 32 + 0 ≤ DISPLAY_HEIGHT := by
    have := Nat.mod_lt y (show 32 > 0 by decide)
    simp only [DISPLAY_HEIGHT]; omega
  have h := rows_display (x % 64) (y % 32) sp hx n 0 d.display false r c hy
  simp only [Nat.add_zero, sprite_bit_eq_testBit] at h
  simp only [Display.draw_sprite, origin_x_mask, origin_y_mask]
  exact h

/-- The flag returned by `draw_sprite`. -/
theorem draw_sprite_flag (d : Display) (x y : Nat) (sp : Nat → Nat) (n : Nat) :
    (d.draw_sprite x y sp n).2 = true ↔
      ∃ r c, y % 32 ≤ r ∧ r < y % 32 + n ∧ r < DISPLAY_HEIGHT ∧
        x % 64 ≤ c ∧ c < x % 64 + 8 ∧ c < DISPLAY_WIDTH ∧
        (sp (r - y % 32)).testBit (7 - (c - x % 64)) = true ∧ d.display r c = true := by
  have hx : x % 64 < DISPLAY_WIDTH := Nat.mod_lt _ (by decide)
  have hy : y % 32 + 0 ≤ DISPLAY_HEIGHT := by
    have := Nat.mod_lt y (show 32 > 0 by decide)
    simp only [DISPLAY_HEIGHT]; omega
  have h := rows_flag (x % 64) (y % 32) sp hx n 0 d.display false hy
  simp only [Nat.add_zero, sprite_bit_eq_testBit, Bool.false_eq_true, false_or] at h
  simp only [Display.draw_sprite, origin_x_mask, origin_y_mask]
  exact h


/-- C7: for every bitmap, origin, sprite and length, calling `draw_sprite` twice
in succession with the same arguments leaves the bitmap cell for cell as it
was before the first call. -/
theorem draw_sprite_twice (d : Display) (x y : Nat) (sp : Nat → Nat) (n : Nat) :
    ((d.draw_sprite x y sp n).1.draw_sprite x y sp n).1.display = d.display := by
  funext r c
  have h1 := draw_sprite_changed d x y sp n r c
  have h2 := draw_sprite_changed (d.draw_sprite x y sp n).1 x y sp n r c
  by_cases hcond : y % 32 ≤ r ∧ r < y % 32 + n ∧ r < DISPLAY_HEIGHT ∧
        x % 64 ≤ c ∧ c < x % 64 + 8 ∧ c < DISPLAY_WIDTH ∧
        (sp (r - y % 32)).testBit (7 - (c - x % 64)) = true
  · have a := h1.2 hcond
    have b := h2.2 hcond
    revert a b
    cases ((d.draw_sprite x y sp n).1.draw_sprite x y sp n).1.display r c <;>
      cases (d.draw_sprite x y sp n).1.display r c <;>
      cases d.display r c <;> simp
  · have a : (d.draw_sprite x y sp n).1.display r c = d.display r c := by
      by_contra hne; exact hcond (h1.1 hne)
    have b : ((d.draw_sprite x y sp n).1.draw_sprite x y sp n).1.display r c
        = (d.draw_sprite x y sp n).1.display r c := by
      by_contra hne; exact hcond (h2.1 hne)
    rw [b, a]

/-- The draw instruction `DXYN` calls `draw_sprite` on the registers and the
memory at `index_register` and stores the returned flag in the flag register. -/
theorem execute_draw (s : CPU) (vx vy vn : Nat) (hx : vx < 16) (hy : vy < 16) (hn : vn < 16)
    (d : Display) (inp : Input) (nf : Bool) (rnd : Nat) :
    s.execute_opcode (opcode 13 vx vy vn) d inp nf rnd
      = ({ s with
            registers := setAt s.registers FLAG_REGISTER
              (if (d.draw_sprite (s.registers vx) (s.registers vy)
                    (fun row_idx => s.memory (s.index_register + row_idx)) vn).2 then 1 else 0) },
          (d.draw_sprite (s.registers vx) (s.registers vy)
            (fun row_idx => s.memory (s.index_register + row_idx)) vn).1) := by
  obtain ⟨f1, f2, f3, f4, -, -⟩ := opcode_fields 13 vx vy vn (by decide) hx hy hn
  simp [CPU.execute_opcode, f1, f2, f3, f4]

/-- C8: for every bitmap, origin, sprite and length, `draw_sprite` returns true
if and only if some cell of the 32 x 64 bitmap that was lit before the call is
unlit after it, equivalently some set sprite bit inside the clipped drawing
area lands on a cell that was lit; and `DXYN` stores exactly the result of its
`draw_sprite` call, as 1 or 0, in the flag register, and leaves the display
that call produced. -/
theorem draw_sprite_collision (d : Display) (x y : Nat) (sp : Nat → Nat) (n : Nat)
    (s : CPU) (vx vy vn : Nat) (hx : vx < 16) (hy : vy < 16) (hn : vn < 16)
    (inp : Input) (nf : Bool) (rnd : Nat) :
    ((d.draw_sprite x y sp n).2 = true ↔
      ∃ r c, r < DISPLAY_HEIGHT ∧ c < DISPLAY_WIDTH ∧ d.display r c = true ∧
        (d.draw_sprite x y sp n).1.display r c = false) ∧
    ((d.draw_sprite x y sp n).2 = true ↔
      ∃ r c, r < DISPLAY_HEIGHT ∧ c < DISPLAY_WIDTH ∧
        y % 32 ≤ r ∧ r < y % 32 + n ∧ x % 64 ≤ c ∧ c < x % 64 + 8 ∧
        (sp (r - y % 32)).testBit (7 - (c - x % 64)) = true ∧ d.display r c = true) ∧
    (s.execute_opcode (opcode 13 vx vy vn) d inp nf rnd).1.registers FLAG_REGISTER
      = (if (d.draw_sprite (s.registers vx) (s.registers vy)
              (fun row_idx => s.memory (s.index_register + row_idx)) vn).2 then 1 else 0) ∧
    (s.execute_opcode (opcode 13 vx vy vn) d inp nf rnd).2
      = (d.draw_sprite (s.registers vx) (s.registers vy)
              (fun row_idx => s.memory (s.index_register + row_idx)) vn).1 := by
  refine ⟨?_, ?_, ?_, ?_⟩
  · rw [draw_sprite_flag]
    constructor
    · rintro ⟨r, c, h1, h2, h3, h4, h5, h6, h7, h8⟩
      have hne := (draw_sprite_changed d x y sp n r c).2 ⟨h1, h2, h3, h4, h5, h6, h7⟩
      refine ⟨r, c, h3, h6, h8, ?_⟩
      rw [h8] at hne
      simpa using hne
    · rintro ⟨r, c, -, -, h3, h4⟩
      have hne : (d.draw_sprite x y sp n).1.display r c ≠ d.display r c := by
        rw [h3, h4]; decide
      obtain ⟨h1, h2, h5, h6, h7, h8, h9⟩ := (draw_sprite_changed d x y sp n r c).1 hne
      exact ⟨r, c, h1, h2, h5, h6, h7, h8, h9, h3⟩
  · rw [draw_sprite_flag]
    constructor
    · rintro ⟨r, c, h1, h2, h3, h4, h5, h6, h7, h8⟩
      exact ⟨r, c, h3, h6, h1, h2, h4, h5, h7, h8⟩
    · rintro ⟨r, c, h3, h6, h1, h2, h4, h5, h7, h8⟩
      exact ⟨r, c, h1, h2, h3, h4, h5, h6, h7, h8⟩
  · rw [execute_draw s vx vy vn hx hy hn]
    simp [setAt]
  · rw [execute_draw s vx vy vn hx hy hn]

/-- C8 for `D015` on the blank display and a fresh machine with V0 = 6, V1 = 1:
the flag register receives the result of drawing the five rows of glyph 0. -/
theorem draw_sprite_collision_witness :
    (0 : Nat) < 16 ∧ (1 : Nat) < 16 ∧ (5 : Nat) < 16 ∧
    ((machine_with_registers [6, 1]).execute_opcode (opcode 13 0 1 5) blank_display no_keys
        false 0).1.registers FLAG_REGISTER
      = (if (blank_display.draw_sprite ((machine_with_registers [6, 1]).registers 0)
              ((machine_with_registers [6, 1]).registers 1)
              (fun row_idx => (machine_with_registers [6, 1]).memory
                ((machine_with_registers [6, 1]).index_register + row_idx)) 5).2 then 1 else 0) :=
  ⟨by decide, by decide, by decide,
    (draw_sprite_collision blank_display 70 33 (bytes [0x80]) 1 (machine_with_registers [6, 1])
      0 1 5 (by decide) (by decide) (by decide) no_keys false 0).2.2.1⟩

/-- C9: for every bitmap, sprite, length and origin, `draw_sprite` at `(x, y)`
returns the same bitmap, redraw flag and collision result as `draw_sprite` at
`(x mod 64, y mod 32)`. -/
theorem draw_sprite_origin_wrap (d : Display) (x y : Nat) (sp : Nat → Nat) (n : Nat) :
    d.draw_sprite x y sp n = d.draw_sprite (x % 64) (y % 32) sp n := by
  simp only [Display.draw_sprite, origin_x_mask, origin_y_mask, Nat.mod_mod]

/-- C10: with x0 = x mod 64 and y0 = y mod 32, every cell (r, c) of the 32 x 64
bitmap is toggled by `draw_sprite` exactly when y0 <= r < y0 + n,
x0 <= c < x0 + 8 and bit 7 - (c - x0) of sprite byte r - y0 is set, and is
unchanged otherwise: rows and columns past the bottom or right edge are
dropped, never wrapped. -/
theorem draw_sprite_pixel_exact (d : Display) (x y : Nat) (sp : Nat → Nat) (n r c : Nat)
    (hr : r < DISPLAY_HEIGHT) (hc : c < DISPLAY_WIDTH) :
    (d.draw_sprite x y sp n).1.display r c
      = (if y % 32 ≤ r ∧ r < y % 32 + n ∧ x % 64 ≤ c ∧ c < x % 64 + 8 ∧
            (sp (r - y % 32)).testBit (7 - (c - x % 64)) = true
          then !(d.display r c) else d.display r c) := by
  have h := draw_sprite_changed d x y sp n r c
  by_cases hcond : y % 32 ≤ r ∧ r < y % 32 + n ∧ x % 64 ≤ c ∧ c < x % 64 + 8 ∧
            (sp (r - y % 32)).testBit (7 - (c - x % 64)) = true
  · rw [if_pos hcond]
    obtain ⟨h1, h2, h3, h4, h5⟩ := hcond
    have hne := h.2 ⟨h1, h2, hr, h3, h4, hc, h5⟩
    revert hne
    cases (d.draw_sprite x y sp n).1.display r c <;> cases d.display r c <;> simp
  · rw [if_neg hcond]
    by_contra hne
    obtain ⟨h1, h2, -, h3, h4, -, h5⟩ := h.1 hne
    exact hcond ⟨h1, h2, h3, h4, h5⟩

/-- C10 at the sprite `80` drawn at (70, 33) on the blank display, cell (1, 6). -/
theorem draw_sprite_pixel_exact_witness :
    (1 : Nat) < DISPLAY_HEIGHT ∧ (6 : Nat) < DISPLAY_WIDTH ∧
    (blank_display.draw_sprite 70 33 (bytes [0x80]) 1).1.display 1 6
      = (if 33 % 32 ≤ 1 ∧ 1 < 33 % 32 + 1 ∧ 70 % 64 ≤ 6 ∧ 6 < 70 % 64 + 8 ∧
            (bytes [0x80] (1 - 33 % 32)).testBit (7 - (6 - 70 % 64)) = true
          then !(blank_display.display 1 6) else blank_display.display 1 6) :=
  ⟨by decide, by decide,
    draw_sprite_pixel_exact blank_display 70 33 (bytes [0x80]) 1 1 6 (by decide) (by decide)⟩


/-! ## FX1E: add to the index register -/

/-- C11 (defect): on a fresh machine after `A300` and `6001` (index_register =
0x300, V0 = 1) the instruction `F01E` leaves index_register = 0x01, whereas
(0x300 + 1) mod 0x1000 = 0x301: the sum is stored through a cast to 8 bits. -/
theorem add_index_FX1E_keeps_low_byte :
    index_add_machine.index_register = 0x300 ∧ index_add_machine.registers 0 = 1 ∧
    (index_add_machine.execute_opcode (opcode 15 0 1 14) blank_display no_keys false 0).1.index_register
      = 0x01 ∧
    (index_add_machine.index_register + index_add_machine.registers 0) % 0x1000 = 0x301 := by
  decide

/-- What `FX1E` computes: the 16-bit sum of index_register and Vx, of which the
low 8 bits are stored and which is compared with 0xFFF for the flag. -/
theorem add_index_FX1E_code (s : CPU) (x : Nat) (hx : x < 16)
    (d : Display) (inp : Input) (nf : Bool) (rnd : Nat) :
    (s.execute_opcode (opcode 15 x 1 14) d inp nf rnd).1.index_register
      = (s.index_register + s.registers x) % 65536 % 256 ∧
    (s.execute_opcode (opcode 15 x 1 14) d inp nf rnd).1.registers FLAG_REGISTER
      = (if (s.index_register + s.registers x) % 65536 > 0xFFF then 1 else 0) := by
  obtain ⟨f1, f2, -, -, f5, -⟩ := opcode_fields 15 x 1 14 (by decide) hx (by decide) (by decide)
  simp only [CPU.execute_opcode, f1, f2, f5]
  constructor
  · simp
  · by_cases h : (s.index_register + s.registers x) % 65536 > 0xFFF <;> simp [h, setAt]

/-! ## Fetch -/

/-- C13: for every well-formed machine state, `fetch_opcode` fails exactly when
program_counter or program_counter + 1 lies outside 0..4095; otherwise it
returns 256 * memory[program_counter] + memory[program_counter + 1], advances
program_counter by 2 and changes nothing else. -/
theorem fetch_opcode_spec (s : CPU) (hs : s.WF) :
    (s.fetch_opcode = none ↔
      (MEMORY_COUNT ≤ s.program_counter ∨ MEMORY_COUNT ≤ s.program_counter + 1)) ∧
    (s.program_counter + 1 < MEMORY_COUNT →
      s.fetch_opcode
        = some ({ s with program_counter := s.program_counter + 2 },
                256 * s.memory s.program_counter + s.memory (s.program_counter + 1))) := by
  constructor
  · unfold CPU.fetch_opcode
    by_cases h : s.program_counter + 1 ≥ MEMORY_COUNT
    · rw [if_pos h]
      exact ⟨fun _ => Or.inr h, fun _ => rfl⟩
    · rw [if_neg h]
      constructor
      · intro hn; cases hn
      · rintro (h1 | h1)
        · exact absurd (show s.program_counter + 1 ≥ MEMORY_COUNT by omega) h
        · exact absurd h1 h
  · intro h
    have hlt : s.program_counter + 1 < 4096 := h
    have h1 : ¬ (s.program_counter + 1 ≥ MEMORY_COUNT) := by omega
    have b1 := hs.2.2.2.2.1 s.program_counter (by simp only [MEMORY_COUNT]; omega)
    have b2 := hs.2.2.2.2.1 (s.program_counter + 1) h
    have hw := fetch_word _ _ b1 b2
    have hpc : (s.program_counter + 2) % 65536 = s.program_counter + 2 := by omega
    simp only [CPU.fetch_opcode, h1, if_false, hw, hpc]
    rw [Nat.mul_comm]


/-- C13 on a fresh machine, whose program counter is 0x200. -/
theorem fetch_opcode_spec_witness :
    (CPU.new 0).WF ∧
    (CPU.new 0).fetch_opcode
      = some ({ CPU.new 0 with program_counter := (CPU.new 0).program_counter + 2 },
              256 * (CPU.new 0).memory (CPU.new 0).program_counter
                + (CPU.new 0).memory ((CPU.new 0).program_counter + 1)) :=
  ⟨new_WF 0 (by decide), (fetch_opcode_spec (CPU.new 0) (new_WF 0 (by decide))).2 (by decide)⟩

/-! ## Program loading -/

/-- C14 (defect): `load_program` rejects a program of 3584 bytes, although
0x200 + 3584 = 4096 fills memory exactly; 3583 bytes are accepted. -/
theorem load_program_rejects_exact_fit :
    ((CPU.new 0).load_program (fun _ => 0) 3584).isNone = true ∧
    PROGRAM_BUFFER + 3584 = MEMORY_COUNT ∧
    ((CPU.new 0).load_program (fun _ => 0) 3583).isSome = true := by
  decide

/-- The sizes `load_program` rejects are those of 3584 and more. -/
theorem load_program_none_iff (s : CPU) (program : Nat → Nat) (size : Int) :
    s.load_program program size = none ↔ size ≥ 3584 := by
  by_cases h : (PROGRAM_BUFFER : Int) + size ≥ (MEMORY_COUNT : Int)
  · simp only [CPU.load_program, h, if_true, true_iff]
    simp only [PROGRAM_BUFFER, MEMORY_COUNT] at h; omega
  · simp only [CPU.load_program, h, if_false]
    constructor
    · intro hn; exact absurd hn (by simp)
    · intro h2; simp only [PROGRAM_BUFFER, MEMORY_COUNT] at h; omega

/-! ## Copy loops -/

/-- Cells written by the copy loop of `load_program`. -/
theorem load_program_loop_cell (program : Nat → Nat) : ∀ (k i : Nat) (m : Nat → Nat) (a : Nat),
    load_program_loop program k i m a
      = if PROGRAM_BUFFER + i ≤ a ∧ a < PROGRAM_BUFFER + i + k then program (a - PROGRAM_BUFFER)
        else m a := by
  intro k
  induction k with
  | zero =>
    intro i m a
    have h : ¬ (PROGRAM_BUFFER + i ≤ a ∧ a < PROGRAM_BUFFER + i + 0) := by omega
    simp only [load_program_loop, if_neg h]
  | succ k ih =>
    intro i m a
    simp only [load_program_loop]
    rw [ih (i + 1)]
    by_cases h1 : PROGRAM_BUFFER + (i + 1) ≤ a ∧ a < PROGRAM_BUFFER + (i + 1) + k
    · have h2 : PROGRAM_BUFFER + i ≤ a ∧ a < PROGRAM_BUFFER + i + (k + 1) := by omega
      rw [if_pos h1, if_pos h2]
    · rw [if_neg h1]
      by_cases h3 : a = PROGRAM_BUFFER + i
      · have h2 : PROGRAM_BUFFER + i ≤ a ∧ a < PROGRAM_BUFFER + i + (k + 1) := by omega
        rw [if_pos h2, h3, setAt_same, Nat.add_sub_cancel_left]
      · have h2 : ¬ (PROGRAM_BUFFER + i ≤ a ∧ a < PROGRAM_BUFFER + i + (k + 1)) := by omega
        rw [if_neg h2, setAt_other _ _ _ _ h3]

/-- Cells written by the loop of `FX55`. -/
theorem store_registers_loop_cell (regs : Nat → Nat) (idx : Nat) :
    ∀ (k i : Nat) (m : Nat → Nat) (a : Nat),
    store_registers_loop regs idx k i m a
      = if idx + i ≤ a ∧ a < idx + i + k then regs (a - idx) else m a := by
  intro k
  induction k with
  | zero =>
    intro i m a
    have h : ¬ (idx + i ≤ a ∧ a < idx + i + 0) := by omega
    simp only [store_registers_loop, if_neg h]
  | succ k ih =>
    intro i m a
    simp only [store_registers_loop]
    rw [ih (i + 1)]
    by_cases h1 : idx + (i + 1) ≤ a ∧ a < idx + (i + 1) + k
    · have h2 : idx + i ≤ a ∧ a < idx + i + (k + 1) := by omega
      rw [if_pos h1, if_pos h2]
    · rw [if_neg h1]
      by_cases h3 : a = idx + i
      · have h2 : idx + i ≤ a ∧ a < idx + i + (k + 1) := by omega
        rw [if_pos h2, h3, setAt_same, Nat.add_sub_cancel_left]
      · have h2 : ¬ (idx + i ≤ a ∧ a < idx + i + (k + 1)) := by omega
        rw [if_neg h2, setAt_other _ _ _ _ h3]

/-- Registers written by the loop of `FX65`. -/
theorem load_registers_loop_cell (mem : Nat → Nat) (idx : Nat) :
    ∀ (k i : Nat) (r : Nat → Nat) (j : Nat),
    load_registers_loop mem idx k i r j
      = if i ≤ j ∧ j < i + k then mem (idx + j) else r j := by
  intro k
  induction k with
  | zero =>
    intro i r j
    have h : ¬ (i ≤ j ∧ j < i + 0) := by omega
    simp only [load_registers_loop, if_neg h]
  | succ k ih =>
    intro i r j
    simp only [load_registers_loop]
    rw [ih (i + 1)]
    by_cases h1 : i + 1 ≤ j ∧ j < i + 1 + k
    · have h2 : i ≤ j ∧ j < i + (k + 1) := by omega
      rw [if_pos h1, if_pos h2]
    · rw [if_neg h1]
      by_cases h3 : j = i
      · have h2 : i ≤ j ∧ j < i + (k + 1) := by omega
        rw [if_pos h2, h3, setAt_same]
      · have h2 : ¬ (i ≤ j ∧ j < i + (k + 1)) := by omega
        rw [if_neg h2, setAt_other _ _ _ _ h3]

/-- C15: for every machine state and every program and length that
`load_program` accepts, it returns a state in which memory[0x200 + i] =
program[i] for every 0 <= i < n, every memory cell below 0x200 or at or above
0x200 + n is unchanged, and all other members are unchanged. -/
theorem load_program_copies (s : CPU) (program : Nat → Nat) (size : Int)
    (hacc : (s.load_program program size).isSome = true) :
    ∃ s1, s.load_program program size = some s1 ∧
      (∀ i : Nat, (i : Int) < size → s1.memory (PROGRAM_BUFFER + i) = program i) ∧
      (∀ a : Nat, (a < PROGRAM_BUFFER ∨ (PROGRAM_BUFFER : Int) + size ≤ (a : Int)) →
        s1.memory a = s.memory a) ∧
      s1 = { s with memory := s1.memory } := by
  have hsize : size < 3584 := by
    by_contra hge
    have hnone := (load_program_none_iff s program size).2 (by omega)
    rw [hnone] at hacc
    exact absurd hacc (by decide)
  have h : ¬ ((PROGRAM_BUFFER : Int) + size ≥ (MEMORY_COUNT : Int)) := by
    simp only [PROGRAM_BUFFER, MEMORY_COUNT]; omega
  refine ⟨{ s with memory := load_program_loop program size.toNat 0 s.memory }, ?_, ?_, ?_, rfl⟩
  · simp only [CPU.load_program, if_neg h]
  · intro i hi
    have hc : PROGRAM_BUFFER + 0 ≤ PROGRAM_BUFFER + i ∧
        PROGRAM_BUFFER + i < PROGRAM_BUFFER + 0 + size.toNat := by omega
    show load_program_loop program size.toNat 0 s.memory (PROGRAM_BUFFER + i) = program i
    rw [load_program_loop_cell, if_pos hc, Nat.add_sub_cancel_left]
  · intro a ha
    have hc : ¬ (PROGRAM_BUFFER + 0 ≤ a ∧ a < PROGRAM_BUFFER + 0 + size.toNat) := by
      simp only [PROGRAM_BUFFER] at ha ⊢; omega
    show load_program_loop program size.toNat 0 s.memory a = s.memory a
    rw [load_program_loop_cell, if_neg hc]

/-- C15 for the four-byte program `F00A 6105` loaded into a fresh machine. -/
theorem load_program_copies_witness :
    ((CPU.new 0).load_program wait_key_program 4).isSome = true ∧
    ∃ s1, (CPU.new 0).load_program wait_key_program 4 = some s1 ∧
      (∀ i : Nat, (i : Int) < 4 → s1.memory (PROGRAM_BUFFER + i) = wait_key_program i) ∧
      (∀ a : Nat, (a < PROGRAM_BUFFER ∨ (PROGRAM_BUFFER : Int) + 4 ≤ (a : Int)) →
        s1.memory a = (CPU.new 0).memory a) ∧
      s1 = { CPU.new 0 with memory := s1.memory } :=
  ⟨by decide, load_program_copies (CPU.new 0) wait_key_program 4 (by decide)⟩

/-! ## Unrecognised instruction words -/

/-- C12 (counterexample): on a fresh machine, where V0 = V1, the word `5011`
moves the program counter from 0x200 to 0x202, and with V0 = 1, V1 = 2 the
word `9011` does the same: neither is a no-op. -/
theorem skip_5XY1_not_noop :
    (CPU.new 0).program_counter = 0x200 ∧
    ((CPU.new 0).execute_opcode (opcode 5 0 1 1) blank_display no_keys false 0).1.program_counter
      = 0x202 ∧
    ((machine_with_registers [1, 2]).execute_opcode (opcode 9 0 1 1) blank_display no_keys
      false 0).1.program_counter = 0x202 := by
  decide

/-- C12 (amended): for every machine state, display, input and quirk setting,
the words 0NNN other than 00E0 and 00EE, 8XYN with N not in
{0, 2, 3, 4, 5, 6, 7, E}, EXNN with NN not in {9E, A1} and FXNN with NN not in
{07, 0A, 15, 18, 1E, 29, 33, 55, 65} leave machine state and display
unchanged; the families 5 and 9 do not decode their last nibble, so 5XYN and
9XYN execute as 5XY0 and 9XY0 for every N. -/
theorem unrecognised_noop (a x y n : Nat) (ha : a < 16) (hx : x < 16) (hy : y < 16) (hn : n < 16)
    (s : CPU) (d : Display) (inp : Input) (nf : Bool) (rnd : Nat) :
    (((a = 0 ∧ x * 256 + y * 16 + n ≠ 0x0E0 ∧ x * 256 + y * 16 + n ≠ 0x0EE) ∨
      (a = 8 ∧ n ≠ 0 ∧ n ≠ 2 ∧ n ≠ 3 ∧ n ≠ 4 ∧ n ≠ 5 ∧ n ≠ 6 ∧ n ≠ 7 ∧ n ≠ 0xE) ∨
      (a = 0xE ∧ y * 16 + n ≠ 0x9E ∧ y * 16 + n ≠ 0xA1) ∨
      (a = 0xF ∧ y * 16 + n ≠ 0x07 ∧ y * 16 + n ≠ 0x0A ∧ y * 16 + n ≠ 0x15 ∧
        y * 16 + n ≠ 0x18 ∧ y * 16 + n ≠ 0x1E ∧ y * 16 + n ≠ 0x29 ∧ y * 16 + n ≠ 0x33 ∧
        y * 16 + n ≠ 0x55 ∧ y * 16 + n ≠ 0x65)) →
      s.execute_opcode (opcode a x y n) d inp nf rnd = (s, d)) ∧
    s.execute_opcode (opcode 5 x y n) d inp nf rnd
      = s.execute_opcode (opcode 5 x y 0) d inp nf rnd ∧
    s.execute_opcode (opcode 9 x y n) d inp nf rnd
      = s.execute_opcode (opcode 9 x y 0) d inp nf rnd := by
  refine ⟨?_, ?_, ?_⟩
  · obtain ⟨f1, f2, f3, f4, f5, f6⟩ := opcode_fields a x y n ha hx hy hn
    rintro (⟨h0, h1, h2⟩ | ⟨h0, h⟩ | ⟨h0, h1, h2⟩ | ⟨h0, h⟩)
    · subst h0
      simp [CPU.execute_opcode, f1, f6, h1, h2]
    · subst h0
      simp [CPU.execute_opcode, f1, f4, h]
    · subst h0
      simp [CPU.execute_opcode, f1, f5, h1, h2]
    · subst h0
      simp [CPU.execute_opcode, f1, f5, h]
  · obtain ⟨f1, f2, f3, -, -, -⟩ := opcode_fields 5 x y n (by decide) hx hy hn
    obtain ⟨g1, g2, g3, -, -, -⟩ := opcode_fields 5 x y 0 (by decide) hx hy (by decide)
    simp [CPU.execute_opcode, f1, f2, f3, g1, g2, g3]
  · obtain ⟨f1, f2, f3, -, -, -⟩ := opcode_fields 9 x y n (by decide) hx hy hn
    obtain ⟨g1, g2, g3, -, -, -⟩ := opcode_fields 9 x y 0 (by decide) hx hy (by decide)
    simp [CPU.execute_opcode, f1, f2, f3, g1, g2, g3]

/-- C12 (amended) at the word `8011` on a fresh machine. -/
theorem unrecognised_noop_witness :
    (8 : Nat) < 16 ∧ (0 : Nat) < 16 ∧ (1 : Nat) < 16 ∧
    (CPU.new 0).execute_opcode (opcode 8 0 1 1) blank_display no_keys false 0
      = (CPU.new 0, blank_display) :=
  ⟨by decide, by decide, by decide,
    (unrecognised_noop 8 0 1 1 (by decide) (by decide) (by decide) (by decide) (CPU.new 0)
      blank_display no_keys false 0).1 (Or.inr (Or.inl (by decide)))⟩

/-! ## FX33, FX55, FX65: memory through the index register -/

/-- C16: for every well-formed machine state and every x with
index_register + 2 <= 4095, `FX33` stores the hundreds, tens and units digit
of Vx at memory[index_register], memory[index_register + 1] and
memory[index_register + 2]: 100 * m0 + 10 * m1 + m2 = Vx with m0 <= 2,
m1 <= 9, m2 <= 9; no other memory cell, no register and nothing else
changes. -/
theorem bcd_FX33 (s : CPU) (hs : s.WF) (x : Nat) (hx : x < 16)
    (hI : s.index_register + 2 ≤ 4095)
    (d : Display) (inp : Input) (nf : Bool) (rnd : Nat) :
    (s.execute_opcode (opcode 15 x 3 3) d inp nf rnd).1.memory s.index_register
      = s.registers x / 100 ∧
    (s.execute_opcode (opcode 15 x 3 3) d inp nf rnd).1.memory (s.index_register + 1)
      = s.registers x / 10 % 10 ∧
    (s.execute_opcode (opcode 15 x 3 3) d inp nf rnd).1.memory (s.index_register + 2)
      = s.registers x % 10 ∧
    100 * (s.execute_opcode (opcode 15 x 3 3) d inp nf rnd).1.memory s.index_register
      + 10 * (s.execute_opcode (opcode 15 x 3 3) d inp nf rnd).1.memory (s.index_register + 1)
      + (s.execute_opcode (opcode 15 x 3 3) d inp nf rnd).1.memory (s.index_register + 2)
      = s.registers x ∧
    (s.execute_opcode (opcode 15 x 3 3) d inp nf rnd).1.memory s.index_register ≤ 2 ∧
    (s.execute_opcode (opcode 15 x 3 3) d inp nf rnd).1.memory (s.index_register + 1) ≤ 9 ∧
    (s.execute_opcode (opcode 15 x 3 3) d inp nf rnd).1.memory (s.index_register + 2) ≤ 9 ∧
    (∀ a, a ≠ s.index_register → a ≠ s.index_register + 1 → a ≠ s.index_register + 2 →
      (s.execute_opcode (opcode 15 x 3 3) d inp nf rnd).1.memory a = s.memory a) ∧
    s.execute_opcode (opcode 15 x 3 3) d inp nf rnd
      = ({ s with memory := (s.execute_opcode (opcode 15 x 3 3) d inp nf rnd).1.memory }, d) := by
  obtain ⟨f1, f2, -, -, f5, -⟩ := opcode_fields 15 x 3 3 (by decide) hx (by decide) (by decide)
  have hv := hs.1 x hx
  have _hcells := hI
  have e : s.execute_opcode (opcode 15 x 3 3) d inp nf rnd
      = ({ s with
            memory :=
              setAt (setAt (setAt s.memory s.index_register (s.registers x / 100))
                (s.index_register + 1) (s.registers x % 100 / 10))
                (s.index_register + 2) (s.registers x % 10) }, d) := by
    simp [CPU.execute_opcode, f1, f2, f5]
  rw [e]
  have m0 : setAt (setAt (setAt s.memory s.index_register (s.registers x / 100))
            (s.index_register + 1) (s.registers x % 100 / 10))
            (s.index_register + 2) (s.registers x % 10) s.index_register
        = s.registers x / 100 := by
    rw [setAt_other _ _ _ _ (by omega), setAt_other _ _ _ _ (by omega), setAt_same]
  have m1 : setAt (setAt (setAt s.memory s.index_register (s.registers x / 100))
            (s.index_register + 1) (s.registers x % 100 / 10))
            (s.index_register + 2) (s.registers x % 10) (s.index_register + 1)
        = s.registers x % 100 / 10 := by
    rw [setAt_other _ _ _ _ (by omega), setAt_same]
  have m2 : setAt (setAt (setAt s.memory s.index_register (s.registers x / 100))
            (s.index_register + 1) (s.registers x % 100 / 10))
            (s.index_register + 2) (s.registers x % 10) (s.index_register + 2)
        = s.registers x % 10 := setAt_same _ _ _
  simp only [m0, m1, m2]
  refine ⟨trivial, by omega, trivial, by omega, by omega, by omega, by omega, ?_, trivial⟩
  intro a h0 h1 h2
  rw [setAt_other _ _ _ _ h2, setAt_other _ _ _ _ h1, setAt_other _ _ _ _ h0]


/-- C16 for `F033` on a fresh machine with V0 = 254 and index_register = 0. -/
theorem bcd_FX33_witness :
    (machine_with_registers [254]).WF ∧ (0 : Nat) < 16 ∧
    (machine_with_registers [254]).index_register + 2 ≤ 4095 ∧
    100 * ((machine_with_registers [254]).execute_opcode (opcode 15 0 3 3) blank_display no_keys
              false 0).1.memory (machine_with_registers [254]).index_register
      + 10 * ((machine_with_registers [254]).execute_opcode (opcode 15 0 3 3) blank_display
              no_keys false 0).1.memory ((machine_with_registers [254]).index_register + 1)
      + ((machine_with_registers [254]).execute_opcode (opcode 15 0 3 3) blank_display no_keys
              false 0).1.memory ((machine_with_registers [254]).index_register + 2)
      = (machine_with_registers [254]).registers 0 :=
  ⟨machine_with_registers_WF _ (by decide), by decide, by decide,
    (bcd_FX33 (machine_with_registers [254]) (machine_with_registers_WF _ (by decide)) 0
      (by decide) (by decide) blank_display no_keys false 0).2.2.2.1⟩

/-- C17: for every machine state and every x with index_register + x <= 4095,
`FX55` makes memory[I + i] = registers[i] for every 0 <= i <= x, leaves every
other memory cell, all registers and everything else but index_register
unchanged, and leaves index_register = I + x + 1 in legacy mode and = I in
new-functionality mode. -/
theorem store_FX55 (s : CPU) (x : Nat) (hx : x < 16) (hI : s.index_register + x ≤ 4095)
    (d : Display) (inp : Input) (nf : Bool) (rnd : Nat) :
    (∀ i, i ≤ x →
      (s.execute_opcode (opcode 15 x 5 5) d inp nf rnd).1.memory (s.index_register + i)
        = s.registers i) ∧
    (∀ a, (a < s.index_register ∨ s.index_register + x < a) →
      (s.execute_opcode (opcode 15 x 5 5) d inp nf rnd).1.memory a = s.memory a) ∧
    (s.execute_opcode (opcode 15 x 5 5) d inp nf rnd).1.registers = s.registers ∧
    (s.execute_opcode (opcode 15 x 5 5) d inp nf rnd).1.index_register
      = (if nf then s.index_register else s.index_register + x + 1) ∧
    s.execute_opcode (opcode 15 x 5 5) d inp nf rnd
      = ({ s with
            memory := (s.execute_opcode (opcode 15 x 5 5) d inp nf rnd).1.memory,
            index_register := (s.execute_opcode (opcode 15 x 5 5) d inp nf rnd).1.index_register },
          d) := by
  obtain ⟨f1, f2, -, -, f5, -⟩ := opcode_fields 15 x 5 5 (by decide) hx (by decide) (by decide)
  have hw : (s.index_register + x + 1) % 65536 = s.index_register + x + 1 := by omega
  have e : s.execute_opcode (opcode 15 x 5 5) d inp nf rnd
      = ({ s with
            memory := store_registers_loop s.registers s.index_register (x + 1) 0 s.memory,
            index_register := if nf then s.index_register else s.index_register + x + 1 }, d) := by
    cases nf <;> simp [CPU.execute_opcode, f1, f2, f5, hw]
  rw [e]
  refine ⟨?_, ?_, rfl, rfl, rfl⟩
  · intro i hi
    have hc : s.index_register + 0 ≤ s.index_register + i ∧
        s.index_register + i < s.index_register + 0 + (x + 1) := by omega
    show store_registers_loop s.registers s.index_register (x + 1) 0 s.memory
      (s.index_register + i) = s.registers i
    rw [store_registers_loop_cell, if_pos hc, Nat.add_sub_cancel_left]
  · intro a ha
    have hc : ¬ (s.index_register + 0 ≤ a ∧ a < s.index_register + 0 + (x + 1)) := by omega
    show store_registers_loop s.registers s.index_register (x + 1) 0 s.memory a = s.memory a
    rw [store_registers_loop_cell, if_neg hc]


/-- C17 for `F255` in legacy mode on a fresh machine with V0, V1, V2 = 1, 2, 3. -/
theorem store_FX55_witness :
    (2 : Nat) < 16 ∧ (machine_with_registers [1, 2, 3]).index_register + 2 ≤ 4095 ∧
    ((machine_with_registers [1, 2, 3]).execute_opcode (opcode 15 2 5 5) blank_display no_keys
        false 0).1.index_register
      = (if false = true then (machine_with_registers [1, 2, 3]).index_register
          else (machine_with_registers [1, 2, 3]).index_register + 2 + 1) :=
  ⟨by decide, by decide,
    (store_FX55 (machine_with_registers [1, 2, 3]) 2 (by decide) (by decide) blank_display
      no_keys false 0).2.2.2.1⟩

/-- C18: for every machine state and every x with index_register + x <= 4095,
`FX65` makes registers[i] = memory[I + i] for every 0 <= i <= x, leaves the
registers above x, all of memory and everything else but index_register
unchanged, and leaves index_register = I + x + 1 in legacy mode and = I in
new-functionality mode. -/
theorem load_FX65 (s : CPU) (x : Nat) (hx : x < 16) (hI : s.index_register + x ≤ 4095)
    (d : Display) (inp : Input) (nf : Bool) (rnd : Nat) :
    (∀ i, i ≤ x →
      (s.execute_opcode (opcode 15 x 6 5) d inp nf rnd).1.registers i
        = s.memory (s.index_register + i)) ∧
    (∀ j, x < j →
      (s.execute_opcode (opcode 15 x 6 5) d inp nf rnd).1.registers j = s.registers j) ∧
    (s.execute_opcode (opcode 15 x 6 5) d inp nf rnd).1.memory = s.memory ∧
    (s.execute_opcode (opcode 15 x 6 5) d inp nf rnd).1.index_register
      = (if nf then s.index_register else s.index_register + x + 1) ∧
    s.execute_opcode (opcode 15 x 6 5) d inp nf rnd
      = ({ s with
            registers := (s.execute_opcode (opcode 15 x 6 5) d inp nf rnd).1.registers,
            index_register := (s.execute_opcode (opcode 15 x 6 5) d inp nf rnd).1.index_register },
          d) := by
  obtain ⟨f1, f2, -, -, f5, -⟩ := opcode_fields 15 x 6 5 (by decide) hx (by decide) (by decide)
  have hw : (s.index_register + x + 1) % 65536 = s.index_register + x + 1 := by omega
  have e : s.execute_opcode (opcode 15 x 6 5) d inp nf rnd
      = ({ s with
            registers := load_registers_loop s.memory s.index_register (x + 1) 0 s.registers,
            index_register := if nf then s.index_register else s.index_register + x + 1 }, d) := by
    cases nf <;> simp [CPU.execute_opcode, f1, f2, f5, hw]
  rw [e]
  refine ⟨?_, ?_, rfl, rfl, rfl⟩
  · intro i hi
    have hc : 0 ≤ i ∧ i < 0 + (x + 1) := by omega
    show load_registers_loop s.memory s.index_register (x + 1) 0 s.registers i
      = s.memory (s.index_register + i)
    rw [load_registers_loop_cell, if_pos hc]
  · intro j hj
    have hc : ¬ (0 ≤ j ∧ j < 0 + (x + 1)) := by omega
    show load_registers_loop s.memory s.index_register (x + 1) 0 s.registers j = s.registers j
    rw [load_registers_loop_cell, if_neg hc]


/-- C18 for `F265` in new-functionality mode on a fresh machine. -/
theorem load_FX65_witness :
    (2 : Nat) < 16 ∧ (CPU.new 0).index_register + 2 ≤ 4095 ∧
    ((CPU.new 0).execute_opcode (opcode 15 2 6 5) blank_display no_keys true 0).1.index_register
      = (if true = true then (CPU.new 0).index_register
          else (CPU.new 0).index_register + 2 + 1) :=
  ⟨by decide, by decide,
    (load_FX65 (CPU.new 0) 2 (by decide) (by decide) blank_display no_keys true 0).2.2.2.1⟩

/-! ## 8XY6 and 8XYE: shifts -/

set_option maxRecDepth 100000 in
/-- Bit tests of the shift instructions on a byte. -/
theorem shift_bits : ∀ v < 256,
    (v &&& 0x01 ≠ 0 ↔ v % 2 = 1) ∧ (v &&& 0x80 ≠ 0 ↔ v / 128 % 2 = 1) ∧
    (v >>> 1) % 256 = v / 2 ∧ (v <<< 1) % 256 = 2 * v % 256 := by
  decide

/-- The register updates of `8XY6` after the optional copy. -/
theorem shift_right_registers (r0 : Nat → Nat) (x v : Nat) (hx : x ≠ 15) (h0 : r0 x = v)
    (hv : v < 256) :
    setAt (if (setAt r0 15 0 x &&& 0x01) ≠ 0 then setAt (setAt r0 15 0) 15 1 else setAt r0 15 0) x
        (((if (setAt r0 15 0 x &&& 0x01) ≠ 0 then setAt (setAt r0 15 0) 15 1
            else setAt r0 15 0) x >>> 1) % 256) x = v / 2 ∧
    setAt (if (setAt r0 15 0 x &&& 0x01) ≠ 0 then setAt (setAt r0 15 0) 15 1 else setAt r0 15 0) x
        (((if (setAt r0 15 0 x &&& 0x01) ≠ 0 then setAt (setAt r0 15 0) 15 1
            else setAt r0 15 0) x >>> 1) % 256) 15 = v % 2 := by
  obtain ⟨b1, -, b3, -⟩ := shift_bits v hv
  have e1 : setAt r0 15 0 x = v := by rw [setAt_other _ _ _ _ hx, h0]
  rw [e1]
  have hx3 : (15 : Nat) ≠ x := fun h => hx h.symm
  by_cases hb : v &&& 0x01 ≠ 0
  · rw [if_pos hb, setAt_same, setAt_other _ _ _ _ hx, e1, b3, setAt_other _ _ _ _ hx3, setAt_same]
    exact ⟨rfl, (b1.1 hb).symm⟩
  · rw [if_neg hb, setAt_same, e1, b3, setAt_other _ _ _ _ hx3, setAt_same]
    refine ⟨rfl, ?_⟩
    have : ¬ (v % 2 = 1) := fun h => hb (b1.2 h)
    omega

/-- The register updates of `8XYE` after the optional copy. -/
theorem shift_left_registers (r0 : Nat → Nat) (x v : Nat) (hx : x ≠ 15) (h0 : r0 x = v)
    (hv : v < 256) :
    setAt (if (setAt r0 15 0 x &&& 0x80) ≠ 0 then setAt (setAt r0 15 0) 15 1 else setAt r0 15 0) x
        (((if (setAt r0 15 0 x &&& 0x80) ≠ 0 then setAt (setAt r0 15 0) 15 1
            else setAt r0 15 0) x <<< 1) % 256) x = 2 * v % 256 ∧
    setAt (if (setAt r0 15 0 x &&& 0x80) ≠ 0 then setAt (setAt r0 15 0) 15 1 else setAt r0 15 0) x
        (((if (setAt r0 15 0 x &&& 0x80) ≠ 0 then setAt (setAt r0 15 0) 15 1
            else setAt r0 15 0) x <<< 1) % 256) 15 = v / 128 % 2 := by
  obtain ⟨-, b2, -, b4⟩ := shift_bits v hv
  have e1 : setAt r0 15 0 x = v := by rw [setAt_other _ _ _ _ hx, h0]
  rw [e1]
  have hx3 : (15 : Nat) ≠ x := fun h => hx h.symm
  by_cases hb : v &&& 0x80 ≠ 0
  · rw [if_pos hb, setAt_same, setAt_other _ _ _ _ hx, e1, b4, setAt_other _ _ _ _ hx3, setAt_same]
    exact ⟨rfl, (b2.1 hb).symm⟩
  · rw [if_neg hb, setAt_same, e1, b4, setAt_other _ _ _ _ hx3, setAt_same]
    refine ⟨rfl, ?_⟩
    have : ¬ (v / 128 % 2 = 1) := fun h => hb (b2.2 h)
    omega

/-- C19: for every well-formed machine state, every x other than 0xF, every y
and either quirk setting, with s = Vy in new-functionality mode and s = Vx
otherwise (values before the instruction): after `8XY6`, registers[x] =
floor(s / 2) and the flag register = s mod 2; after `8XYE`, registers[x] =
(2 * s) mod 256 and the flag register = bit 7 of s. -/
theorem shifts_8XY6_8XYE (s : CPU) (hs : s.WF) (x y : Nat) (hx : x < 15) (hy : y < 16)
    (d : Display) (inp : Input) (nf : Bool) (rnd : Nat) :
    (s.execute_opcode (opcode 8 x y 6) d inp nf rnd).1.registers x
      = (if nf then s.registers y else s.registers x) / 2 ∧
    (s.execute_opcode (opcode 8 x y 6) d inp nf rnd).1.registers FLAG_REGISTER
      = (if nf then s.registers y else s.registers x) % 2 ∧
    (s.execute_opcode (opcode 8 x y 14) d inp nf rnd).1.registers x
      = 2 * (if nf then s.registers y else s.registers x) % 256 ∧
    (s.execute_opcode (opcode 8 x y 14) d inp nf rnd).1.registers FLAG_REGISTER
      = (if nf then s.registers y else s.registers x) / 128 % 2 := by
  obtain ⟨f1, f2, f3, f4, -, -⟩ := opcode_fields 8 x y 6 (by decide) (by omega) hy (by decide)
  obtain ⟨g1, g2, g3, g4, -, -⟩ := opcode_fields 8 x y 14 (by decide) (by omega) hy (by decide)
  have hx2 : x ≠ 15 := by omega
  have bx := hs.1 x (by simp only [REGISTER_COUNT]; omega)
  have b_y := hs.1 y hy
  have hvb : (if nf then s.registers y else s.registers x) < 256 := by
    cases nf <;> simp [bx, b_y]
  have r0 : (if nf = true then setAt s.registers x (s.registers y) else s.registers) x
      = (if nf then s.registers y else s.registers x) := by
    cases nf <;> simp [setAt]
  have hr := shift_right_registers _ x _ hx2 r0 hvb
  have hl := shift_left_registers _ x _ hx2 r0 hvb
  simp only [CPU.execute_opcode, f1, f2, f3, f4, g1, g2, g3, g4]
  exact ⟨hr.1, hr.2, hl.1, hl.2⟩

/-- C19 for `8016` and `801E` in new-functionality mode with V0 = 0x81,
V1 = 0x03. -/
theorem shifts_8XY6_8XYE_witness :
    (machine_with_registers [0x81, 0x03]).WF ∧ (0 : Nat) < 15 ∧ (1 : Nat) < 16 ∧
    ((machine_with_registers [0x81, 0x03]).execute_opcode (opcode 8 0 1 6) blank_display no_keys
        true 0).1.registers 0
      = (if true = true then (machine_with_registers [0x81, 0x03]).registers 1
          else (machine_with_registers [0x81, 0x03]).registers 0) / 2 :=
  ⟨machine_with_registers_WF _ (by decide), by decide, by decide,
    (shifts_8XY6_8XYE (machine_with_registers [0x81, 0x03])
      (machine_with_registers_WF _ (by decide)) 0 1 (by decide) (by decide) blank_display
      no_keys true 0).1⟩

/-! ## Timers -/

/-- C20: for every pair of 8-bit timer values, `decrement_timers` sets
delay_timer to max(delay_timer - 1, 0) and sound_timer to
max(sound_timer - 1, 0), each whatever the other is, and changes nothing
else. -/
theorem decrement_timers_spec (s : CPU) (hd : s.delay_timer < 256) (hsnd : s.sound_timer < 256) :
    s.decrement_timers
      = { s with delay_timer := s.delay_timer - 1, sound_timer := s.sound_timer - 1 } ∧
    (s.decrement_timers.delay_timer : Int) = max ((s.delay_timer : Int) - 1) 0 ∧
    (s.decrement_timers.sound_timer : Int) = max ((s.sound_timer : Int) - 1) 0 := by
  have w : ∀ t : Nat, 0 < t → t < 256 → wrap8 ((t : Int) - 1) = t - 1 := by
    intro t h0 h1
    simp only [wrap8]; omega
  have e : s.decrement_timers
      = { s with delay_timer := s.delay_timer - 1, sound_timer := s.sound_timer - 1 } := by
    by_cases h1 : s.sound_timer > 0 <;> by_cases h2 : s.delay_timer > 0
    · simp [CPU.decrement_timers, h1, h2, w _ h1 hsnd, w _ h2 hd]
    · have : s.delay_timer = 0 := by omega
      simp [CPU.decrement_timers, h1, h2, w _ h1 hsnd, this]
    · have : s.sound_timer = 0 := by omega
      simp [CPU.decrement_timers, h1, h2, w _ h2 hd, this]
    · have e1 : s.sound_timer = 0 := by omega
      have e2 : s.delay_timer = 0 := by omega
      simp [CPU.decrement_timers, h1, h2, e1, e2]
      cases s; simp_all
  rw [e]
  refine ⟨rfl, ?_, ?_⟩
  · show ((s.delay_timer - 1 : Nat) : Int) = max ((s.delay_timer : Int) - 1) 0
    omega
  · show ((s.sound_timer - 1 : Nat) : Int) = max ((s.sound_timer : Int) - 1) 0
    omega

/-- C20 on a machine with delay timer 0 and sound timer 5. -/
theorem decrement_timers_spec_witness :
    timer_machine.delay_timer < 256 ∧ timer_machine.sound_timer < 256 ∧
    timer_machine.decrement_timers
      = { timer_machine with delay_timer := timer_machine.delay_timer - 1,
                             sound_timer := timer_machine.sound_timer - 1 } :=
  ⟨by decide, by decide, (decrement_timers_spec timer_machine (by decide) (by decide)).1⟩

/-! ## 00EE on an empty stack -/

/-- C21: for every machine state with stack_pointer = 0, `00EE` returns
normally, sets program_counter to 0 and leaves stack_pointer at 0 and
registers, memory, index_register, timers and everything else unchanged. -/
theorem return_empty_stack (s : CPU) (hsp : s.stack_pointer = 0)
    (d : Display) (inp : Input) (nf : Bool) (rnd : Nat) :
    s.execute_opcode 0x00EE d inp nf rnd = ({ s with program_counter := 0 }, d) := by
  rw [execute_return]
  simp [CPU.pop_from_stack, hsp]

/-- C21 on a fresh machine, whose stack is empty. -/
theorem return_empty_stack_witness :
    (CPU.new 0).stack_pointer = 0 ∧
    (CPU.new 0).execute_opcode 0x00EE blank_display no_keys false 0
      = ({ CPU.new 0 with program_counter := 0 }, blank_display) :=
  ⟨rfl, return_empty_stack (CPU.new 0) rfl blank_display no_keys false 0⟩

/-! ## 00E0: clear the display -/

/-- Cells cleared by the inner loop of `clear_display`. -/
theorem clear_display_cols_cell (i : Nat) : ∀ (k j : Nat) (g : Nat → Nat → Bool) (r c : Nat),
    clear_display_cols i k j g r c
      = if r = i ∧ j ≤ c ∧ c < j + k then false else g r c := by
  intro k
  induction k with
  | zero =>
    intro j g r c
    have h : ¬ (r = i ∧ j ≤ c ∧ c < j + 0) := by omega
    simp only [clear_display_cols, if_neg h]
  | succ k ih =>
    intro j g r c
    simp only [clear_display_cols]
    rw [ih (j + 1)]
    by_cases h1 : r = i ∧ j + 1 ≤ c ∧ c < j + 1 + k
    · have h2 : r = i ∧ j ≤ c ∧ c < j + (k + 1) := by omega
      rw [if_pos h1, if_pos h2]
    · rw [if_neg h1]
      by_cases h3 : r = i ∧ c = j
      · have h2 : r = i ∧ j ≤ c ∧ c < j + (k + 1) := by omega
        rw [if_pos h2, h3.1, h3.2, setPixel_same]
      · have h2 : ¬ (r = i ∧ j ≤ c ∧ c < j + (k + 1)) := by omega
        rw [if_neg h2, setPixel_other _ _ _ _ _ _ h3]

/-- Cells cleared by the outer loop of `clear_display`. -/
theorem clear_display_rows_cell : ∀ (k i : Nat) (g : Nat → Nat → Bool) (r c : Nat),
    clear_display_rows k i g r c
      = if i ≤ r ∧ r < i + k ∧ c < DISPLAY_WIDTH then false else g r c := by
  intro k
  induction k with
  | zero =>
    intro i g r c
    have h : ¬ (i ≤ r ∧ r < i + 0 ∧ c < DISPLAY_WIDTH) := by omega
    simp only [clear_display_rows, if_neg h]
  | succ k ih =>
    intro i g r c
    simp only [clear_display_rows]
    rw [ih (i + 1), clear_display_cols_cell]
    by_cases h1 : i + 1 ≤ r ∧ r < i + 1 + k ∧ c < DISPLAY_WIDTH
    · have h2 : i ≤ r ∧ r < i + (k + 1) ∧ c < DISPLAY_WIDTH := by omega
      rw [if_pos h1, if_pos h2]
    · rw [if_neg h1]
      by_cases h3 : r = i ∧ 0 ≤ c ∧ c < 0 + DISPLAY_WIDTH
      · have h2 : i ≤ r ∧ r < i + (k + 1) ∧ c < DISPLAY_WIDTH := by omega
        rw [if_pos h2, if_pos h3]
      · have h2 : ¬ (i ≤ r ∧ r < i + (k + 1) ∧ c < DISPLAY_WIDTH) := by omega
        rw [if_neg h2, if_neg h3]

/-- `clear_display` clears the 32 x 64 cells of the bitmap. -/
theorem clear_display_cell (d : Display) (r c : Nat) :
    d.clear_display.display r c
      = if r < DISPLAY_HEIGHT ∧ c < DISPLAY_WIDTH then false else d.display r c := by
  show clear_display_rows DISPLAY_HEIGHT 0 d.display r c = _
  rw [clear_display_rows_cell]
  by_cases h : r < DISPLAY_HEIGHT ∧ c < DISPLAY_WIDTH
  · have h2 : 0 ≤ r ∧ r < 0 + DISPLAY_HEIGHT ∧ c < DISPLAY_WIDTH := by omega
    rw [if_pos h, if_pos h2]
  · have h2 : ¬ (0 ≤ r ∧ r < 0 + DISPLAY_HEIGHT ∧ c < DISPLAY_WIDTH) := by omega
    rw [if_neg h, if_neg h2]

/-- The instruction `00E0` calls `clear_display`. -/
theorem execute_clear (s : CPU) (d : Display) (inp : Input) (nf : Bool) (rnd : Nat) :
    s.execute_opcode 0x00E0 d inp nf rnd = (s, d.clear_display) := by
  have e1 : 0x00E0 &&& 0xF000 = 0 := by decide
  have e2 : 0x00E0 &&& 0x0FFF = 0x00E0 := by decide
  simp [CPU.execute_opcode, e1, e2]

/-- C22: for every bitmap, `clear_display` leaves each of the 32 x 64 cells
unlit and the redraw flag set, applying it twice gives the same display state
as applying it once, and the instruction `00E0` is `clear_display`. -/
theorem clear_display_idempotent (d : Display) (s : CPU) (inp : Input) (nf : Bool) (rnd : Nat) :
    (∀ r c, r < DISPLAY_HEIGHT → c < DISPLAY_WIDTH → d.clear_display.display r c = false) ∧
    d.clear_display.redraw = true ∧
    d.clear_display.clear_display = d.clear_display ∧
    s.execute_opcode 0x00E0 d inp nf rnd = (s, d.clear_display) := by
  refine ⟨?_, rfl, ?_, execute_clear s d inp nf rnd⟩
  · intro r c hr hc
    rw [clear_display_cell, if_pos ⟨hr, hc⟩]
  · have h : d.clear_display.clear_display.display = d.clear_display.display := by
      funext r c
      rw [clear_display_cell]
      by_cases hc : r < DISPLAY_HEIGHT ∧ c < DISPLAY_WIDTH
      · rw [if_pos hc, clear_display_cell, if_pos hc]
      · rw [if_neg hc]
    show ({ display := d.clear_display.clear_display.display, redraw := true } : Display)
      = { display := d.clear_display.display, redraw := true }
    rw [h]

/-! ## FX29: font glyph address -/

/-- Cells written by the copy loop of `load_font`. -/
theorem load_font_loop_cell : ∀ (k i : Nat) (m : Nat → Nat) (a : Nat),
    load_font_loop k i m a = if i ≤ a ∧ a < i + k then CHIP8_FONT.getD a 0 else m a := by
  intro k
  induction k with
  | zero =>
    intro i m a
    have h : ¬ (i ≤ a ∧ a < i + 0) := by omega
    simp only [load_font_loop, if_neg h]
  | succ k ih =>
    intro i m a
    simp only [load_font_loop]
    rw [ih (i + 1)]
    by_cases h1 : i + 1 ≤ a ∧ a < i + 1 + k
    · have h2 : i ≤ a ∧ a < i + (k + 1) := by omega
      rw [if_pos h1, if_pos h2]
    · rw [if_neg h1]
      by_cases h3 : a = i
      · have h2 : i ≤ a ∧ a < i + (k + 1) := by omega
        rw [if_pos h2, h3, setAt_same]
      · have h2 : ¬ (i ≤ a ∧ a < i + (k + 1)) := by omega
        rw [if_neg h2, setAt_other _ _ _ _ h3]

/-- A fresh machine holds the font table at addresses 0..79. -/
theorem new_memory_font (p a : Nat) (ha : a < FONT_COUNT) :
    (CPU.new p).memory a = CHIP8_FONT.getD a 0 := by
  show load_font_loop FONT_COUNT 0 _ a = _
  rw [load_font_loop_cell, if_pos (by omega)]

/-- C23: on a freshly constructed machine, for every digit d in 0..15 and every
x, setting registers[x] = d (the state `6X0d` produces) and executing `FX29`
gives index_register = 5 * d, and memory[index_register + k] for k = 0..4 are
the entries 5 * d + k of the font table, the five rows of glyph d. -/
theorem font_address_FX29 (p x dgt : Nat) (hx : x < 16) (hd : dgt < 16)
    (d : Display) (inp : Input) (nf : Bool) (rnd : Nat) :
    ((CPU.new p).execute_opcode (opcode 6 x (dgt / 16) (dgt % 16)) d inp nf rnd).1
      = digit_machine p x dgt ∧
    ((digit_machine p x dgt).execute_opcode (opcode 15 x 2 9) d inp nf rnd).1.index_register
      = 5 * dgt ∧
    (∀ k, k < 5 →
      ((digit_machine p x dgt).execute_opcode (opcode 15 x 2 9) d inp nf rnd).1.memory
          (((digit_machine p x dgt).execute_opcode (opcode 15 x 2 9) d inp nf rnd).1.index_register
            + k)
        = CHIP8_FONT.getD (5 * dgt + k) 0) := by
  obtain ⟨f1, f2, -, -, f5, -⟩ := opcode_fields 15 x 2 9 (by decide) hx (by decide) (by decide)
  obtain ⟨g1, g2, -, -, g5, -⟩ :=
    opcode_fields 6 x (dgt / 16) (dgt % 16) (by decide) hx (by omega) (by omega)
  have hnn : dgt / 16 * 16 + dgt % 16 = dgt := by omega
  have e : (digit_machine p x dgt).execute_opcode (opcode 15 x 2 9) d inp nf rnd
      = ({ digit_machine p x dgt with index_register := 5 * dgt }, d) := by
    have hr : (digit_machine p x dgt).registers x = dgt := setAt_same _ _ _
    have hw : dgt * 5 % 65536 = 5 * dgt := by omega
    simp [CPU.execute_opcode, f1, f2, f5, hr, hw]
  refine ⟨?_, ?_, ?_⟩
  · simp [CPU.execute_opcode, g1, g2, g5, hnn, digit_machine]
  · rw [e]
  · intro k hk
    rw [e]
    show (CPU.new p).memory (5 * dgt + k) = _
    exact new_memory_font p _ (by simp only [FONT_COUNT]; omega)

/-- C23 for registers[0] = 2 and `F029`: index_register = 10. -/
theorem font_address_FX29_witness :
    (0 : Nat) < 16 ∧ (2 : Nat) < 16 ∧
    ((digit_machine 0 0 2).execute_opcode (opcode 15 0 2 9) blank_display no_keys
        false 0).1.index_register = 5 * 2 :=
  ⟨by decide, by decide,
    (font_address_FX29 0 0 2 (by decide) (by decide) blank_display no_keys false 0).2.1⟩

/-! ## The stack pointer -/

/-- `push_to_stack` keeps the stack pointer within 0..16. -/
theorem push_to_stack_pointer (s : CPU) (v : Nat) (h : s.stack_pointer ≤ STACK_COUNT) :
    (s.push_to_stack v).stack_pointer ≤ STACK_COUNT := by
  unfold CPU.push_to_stack
  by_cases hf : s.stack_pointer ≥ STACK_COUNT
  · rw [if_pos hf]; exact h
  · rw [if_neg hf]
    show (s.stack_pointer + 1) % 256 ≤ STACK_COUNT
    simp only [STACK_COUNT] at hf ⊢; omega

/-- `pop_from_stack` keeps the stack pointer within 0..16. -/
theorem pop_from_stack_pointer (s : CPU) (h : s.stack_pointer ≤ STACK_COUNT) :
    s.pop_from_stack.1.stack_pointer ≤ STACK_COUNT := by
  unfold CPU.pop_from_stack
  by_cases h0 : s.stack_pointer = 0
  · rw [if_pos h0]; exact h
  · rw [if_neg h0]
    show wrap8 ((s.stack_pointer : Int) - 1) ≤ STACK_COUNT
    simp only [STACK_COUNT, wrap8] at h ⊢; omega

/-- C24 (defect): a fresh machine loaded with `64C8 AFFE F455` has after two
cycles index_register = 0xFFE, V4 = 200 and stack_pointer = 0; the third cycle,
`F455`, stores V4 at address index_register + 4 = 0x1002 = `MEMORY_COUNT` + 2.
The members `cpu.h` declares after `memory` are the one-byte `delay_timer`,
`sound_timer` and `stack_pointer`, so memory[4096], memory[4097] and
memory[4098] are their places in the object: the store of 200 lands on
`stack_pointer`, and 200 is outside 0..16. -/
theorem store_FX55_reaches_stack_pointer :
    (stack_overrun_run 2).map
        (fun r => (r.1.index_register, r.1.registers 4, r.1.stack_pointer, r.1.memory 0x1002))
      = some (0xFFE, 200, 0, 0) ∧
    (stack_overrun_run 3).map (fun r => r.1.memory (MEMORY_COUNT + 2)) = some 200 ∧
    0xFFE + 4 = MEMORY_COUNT + 2 ∧
    ¬ (200 ≤ STACK_COUNT) := by
  decide!

/-! ## Addresses formed from the index register -/

/-- C25 (defect): a fresh machine loaded with `6107 AFFF F155` has after two
cycles index_register = 0xFFF and V1 = 7; the third cycle, `F155`, stores V1
at address index_register + 1 = 0x1000 = 4096, which is not below
`MEMORY_COUNT`, and moves index_register to 0x1001. -/
theorem store_FX55_past_memory_end :
    (index_overrun_run 2).map (fun r => (r.1.index_register, r.1.registers 1, r.1.memory 0x1000))
      = some (0xFFF, 7, 0) ∧
    (index_overrun_run 3).map (fun r => (r.1.index_register, r.1.memory 0x1000))
      = some (0x1001, 7) ∧
    ¬ (0x1000 < MEMORY_COUNT) := by
  decide!

/-! ## The quirk toggle -/

/-- Conditionals on the same condition with equal branches are equal. -/
theorem ite_congr_branches {α : Type} (c : Prop) [Decidable c] (a a1 b b1 : α)
    (h1 : c → a = a1) (h2 : ¬ c → b = b1) :
    (if c then a else b) = (if c then a1 else b1) := by
  split
  · next h => exact h1 h
  · next h => exact h2 h

/-- C26: for every instruction word that is not 8XY6, 8XYE, BXNN, FX55 or FX65
and every machine, display and input state and random value,
`execute_opcode` with new_functionality = true and with new_functionality =
false return the same machine state and display. -/
theorem quirk_toggle_scope (a x y n : Nat) (ha : a < 16) (hx : x < 16) (hy : y < 16) (hn : n < 16)
    (h8 : ¬ (a = 8 ∧ (n = 6 ∨ n = 0xE))) (hB : a ≠ 0xB)
    (hF : ¬ (a = 0xF ∧ (y * 16 + n = 0x55 ∨ y * 16 + n = 0x65)))
    (s : CPU) (d : Display) (inp : Input) (rnd : Nat) :
    s.execute_opcode (opcode a x y n) d inp true rnd
      = s.execute_opcode (opcode a x y n) d inp false rnd := by
  obtain ⟨f1, -, -, f4, f5, -⟩ := opcode_fields a x y n ha hx hy hn
  unfold CPU.execute_opcode
  dsimp only
  repeat' (first
    | (apply ite_congr_branches <;> intro _)
    | rfl)
  all_goals (simp only [f1, f4, f5] at *; omega)

/-- C26 for the word `8014` on a fresh machine with V0 = 0xFF, V1 = 0x02. -/
theorem quirk_toggle_scope_witness :
    (8 : Nat) < 16 ∧ (0 : Nat) < 16 ∧ (1 : Nat) < 16 ∧ (4 : Nat) < 16 ∧
    (machine_with_registers [0xFF, 0x02]).execute_opcode (opcode 8 0 1 4) blank_display no_keys
        true 0
      = (machine_with_registers [0xFF, 0x02]).execute_opcode (opcode 8 0 1 4) blank_display
          no_keys false 0 :=
  ⟨by decide, by decide, by decide, by decide,
    quirk_toggle_scope 8 0 1 4 (by decide) (by decide) (by decide) (by decide) (by decide)
      (by decide) (by decide) (machine_with_registers [0xFF, 0x02]) blank_display no_keys 0⟩

end Chip8
